import Mathlib

/-!
# chain-smoker recording proxy: embedding and properties

A shallow embedding of the two Go programs `src/proxy/proxy.go` and
`src/parser/proxy/proxy.go`.  Both are a reverse proxy that captures the
request body in `ProxyHandler.ServeHTTP`, stores it in the package-level
variable `current_payload`, and prints one JSON record per upstream response
from the `ModifyResponse` hook `parse_response` / `dump_response`.

Layout: first the parts of the Go standard library the programs call
(`strings`, `net/url`, `io`, `bytes`, `io/ioutil`, `encoding/json`, `net/http`,
`net/http/httputil`), modelled at the level of their documented behaviour;
then the two programs, function by function; then the theorems.

Conventions.
* A Go `string` and a Go `[]byte` are both finite byte sequences; a byte is
  represented by the `Char` with the same number.
* Package-level variables and standard output are threaded explicitly as a
  `World` value.
* `panic(err)` is the `Except.error err` result; the statements written after
  a `panic` in the source are dead code and have no counterpart.
-/

set_option autoImplicit false

/-- One byte of a Go `string` or `[]byte`, represented by the `Char` of the same number. -/
abbrev Byte := Char

/-- Go `string`: an immutable sequence of bytes. -/
abbrev GoString := List Byte

/-- Go `error` values, represented by their message. -/
abbrev GoError := String

deriving instance DecidableEq for Except

/-- Conversion `string(b)` of a byte slice: the same bytes. -/
def Go.string (b : List Byte) : GoString := b

/-- Whether a call returned without error (or a run ended without panic). -/
def Go.succeeded {α : Type} : Except GoError α → Bool
  | .ok _ => true
  | .error _ => false

/-! ## package strings -/

namespace strings

/-- Go `strings.Index`: position of the first occurrence of `sep` in `s`. -/
def Index : GoString → GoString → Option Nat
  | [], sep => if sep.isEmpty then some 0 else none
  | c :: s, sep =>
    if sep.isPrefixOf (c :: s) then some 0 else (Index s sep).map (· + 1)

/-- Go `strings.LastIndex`: position of the last occurrence of `sep` in `s`. -/
def LastIndex : GoString → GoString → Option Nat
  | [], sep => if sep.isEmpty then some 0 else none
  | c :: s, sep =>
    match LastIndex s sep with
    | some i => some (i + 1)
    | none => if sep.isPrefixOf (c :: s) then some 0 else none

/-- Go `strings.Contains`. -/
def Contains (s sub : GoString) : Bool := (Index s sub).isSome

/-- Go `strings.Cut`: the text before and after the first `sep`, and whether `sep` was found. -/
def Cut (s sep : GoString) : GoString × GoString × Bool :=
  match Index s sep with
  | some i => (s.take i, s.drop (i + sep.length), true)
  | none => (s, [], false)

/-- Go `strings.Count` for a one-byte separator. -/
def CountByte (s : GoString) (c : Byte) : Nat := s.count c

end strings

/-! ## package net/url

The programs call `url.Parse` (in `main`) and `(*URL).String` (in `dump_response`).  The
definitions below follow the functions of the same names in the Go standard library,
branch by branch.  Error values are represented by the message of the innermost error,
without the quoted input that `url.Error`, `EscapeError` and `InvalidHostError` add. -/

namespace url

/-- Go `url.Userinfo`. -/
structure Userinfo where
  username : GoString
  password : GoString
  passwordSet : Bool
deriving DecidableEq, Repr

/-- Go `url.URL`. -/
structure URL where
  Scheme : GoString
  Opaque : GoString
  User : Option Userinfo
  Host : GoString
  Path : GoString
  RawPath : GoString
  OmitHost : Bool
  ForceQuery : Bool
  RawQuery : GoString
  Fragment : GoString
  RawFragment : GoString
deriving DecidableEq, Repr

/-- The zero value `url.URL{}`. -/
def URL.zero : URL :=
  { Scheme := [], Opaque := [], User := none, Host := [], Path := [], RawPath := [],
    OmitHost := false, ForceQuery := false, RawQuery := [], Fragment := [], RawFragment := [] }

/-- The `encoding` modes of net/url. -/
inductive encoding
  | encodePath
  | encodePathSegment
  | encodeHost
  | encodeZone
  | encodeUserPassword
  | encodeQueryComponent
  | encodeFragment
deriving DecidableEq, Repr

open encoding

def isAlnum (c : Byte) : Bool :=
  ('a' ≤ c && c ≤ 'z') || ('A' ≤ c && c ≤ 'Z') || ('0' ≤ c && c ≤ '9')

def ishex (c : Byte) : Bool :=
  ('0' ≤ c && c ≤ '9') || ('a' ≤ c && c ≤ 'f') || ('A' ≤ c && c ≤ 'F')

def unhex (c : Byte) : Nat :=
  if '0' ≤ c && c ≤ '9' then c.toNat - '0'.toNat
  else if 'a' ≤ c && c ≤ 'f' then c.toNat - 'a'.toNat + 10
  else if 'A' ≤ c && c ≤ 'F' then c.toNat - 'A'.toNat + 10
  else 0

/-- The apostrophe byte. -/
def apostrophe : Byte := Char.ofNat 39

/-- Bytes the host component may carry unescaped (first `switch` of `shouldEscape`). -/
def hostSubDelims : List Byte :=
  ['!', '$', '&', apostrophe, '(', ')', '*', '+', ',', ';', '=', ':', '[', ']', '<', '>', '"']

/-- Go `url.shouldEscape`. -/
def shouldEscape (c : Byte) (mode : encoding) : Bool :=
  if isAlnum c then false
  else if (mode = encodeHost || mode = encodeZone) && hostSubDelims.contains c then false
  else if ['-', '_', '.', '~'].contains c then false
  else if ['$', '&', '+', ',', '/', ':', ';', '=', '?', '@'].contains c then
    match mode with
    | encodePath => c == '?'
    | encodePathSegment => c == '/' || c == ';' || c == ',' || c == '?'
    | encodeUserPassword => c == '@' || c == '/' || c == '?' || c == ':'
    | encodeQueryComponent => true
    | encodeFragment => false
    -- encodeHost, encodeZone: no case of the inner switch applies and control
    -- reaches the final `return true`
    | _ => true
  else if mode = encodeFragment && ['!', '(', ')', '*'].contains c then false
  else true

/-- First loop of Go `url.unescape`: checks that every `%` escape is well formed and
counts them (`n`), tracking `hasPlus`. -/
def unescapeScan (mode : encoding) : GoString → Nat → Bool → Except GoError (Nat × Bool)
  | [], n, hasPlus => .ok (n, hasPlus)
  | c :: rest, n, hasPlus =>
    if c = '%' then
      match rest with
      | a :: b :: rest2 =>
        if !ishex a || !ishex b then .error "invalid URL escape"
        else if mode = encodeHost && unhex a < 8 && [c, a, b] ≠ "%25".toList then
          .error "invalid URL escape"
        else if mode = encodeZone && [c, a, b] ≠ "%25".toList
            && Char.ofNat (unhex a * 16 + unhex b) ≠ ' '
            && shouldEscape (Char.ofNat (unhex a * 16 + unhex b)) encodeHost then
          .error "invalid URL escape"
        else unescapeScan mode rest2 (n + 1) hasPlus
      | _ => .error "invalid URL escape"
    else if c = '+' then unescapeScan mode rest n (mode = encodeQueryComponent)
    else if (mode = encodeHost || mode = encodeZone) && c.toNat < 128
        && shouldEscape c encodeHost then
      .error "invalid character in host name"
    else unescapeScan mode rest n hasPlus

/-- Second loop of Go `url.unescape`: decodes the escapes. -/
def unescapeDecode (mode : encoding) : GoString → GoString
  | [] => []
  | c :: rest =>
    if c = '%' then
      match rest with
      | a :: b :: rest2 => Char.ofNat (unhex a * 16 + unhex b) :: unescapeDecode mode rest2
      | _ => [c]
    else if c = '+' then
      (if mode = encodeQueryComponent then ' ' else '+') :: unescapeDecode mode rest
    else c :: unescapeDecode mode rest

/-- Go `url.unescape`. -/
def unescape (s : GoString) (mode : encoding) : Except GoError GoString :=
  match unescapeScan mode s 0 false with
  | .error e => .error e
  | .ok (n, hasPlus) => if n = 0 && !hasPlus then .ok s else .ok (unescapeDecode mode s)

def upperhex : List Byte := "0123456789ABCDEF".toList

/-- Go `url.escape`. -/
def escape (s : GoString) (mode : encoding) : GoString :=
  s.flatMap fun c =>
    if c = ' ' && mode = encodeQueryComponent then ['+']
    else if shouldEscape c mode then
      ['%', upperhex.getD (c.toNat / 16) '0', upperhex.getD (c.toNat % 16) '0']
    else [c]

/-- Go `url.getScheme`, as a loop over the bytes from position `i`; the result is the
scheme and the rest, both as offsets into the input held by the caller. -/
def getSchemeLoop (rawURL : GoString) : GoString → Nat → Except GoError (GoString × GoString)
  | [], _ => .ok ([], rawURL)
  | c :: cs, i =>
    if ('a' ≤ c && c ≤ 'z') || ('A' ≤ c && c ≤ 'Z') then getSchemeLoop rawURL cs (i + 1)
    else if ('0' ≤ c && c ≤ '9') || c = '+' || c = '-' || c = '.' then
      if i = 0 then .ok ([], rawURL) else getSchemeLoop rawURL cs (i + 1)
    else if c = ':' then
      if i = 0 then .error "missing protocol scheme" else .ok (rawURL.take i, rawURL.drop (i + 1))
    else .ok ([], rawURL)

/-- Go `url.getScheme`. -/
def getScheme (rawURL : GoString) : Except GoError (GoString × GoString) :=
  getSchemeLoop rawURL rawURL 0

/-- Go `url.stringContainsCTLByte`. -/
def stringContainsCTLByte (s : GoString) : Bool :=
  s.any fun b => b < ' ' || b.toNat = 127

/-- Go `url.validOptionalPort`. -/
def validOptionalPort (port : GoString) : Bool :=
  match port with
  | [] => true
  | c :: rest => c = ':' && rest.all fun b => '0' ≤ b && b ≤ '9'

/-- Go `url.validUserinfo`. -/
def validUserinfo (s : GoString) : Bool :=
  s.all fun r =>
    isAlnum r ||
      ['-', '.', '_', ':', '~', '!', '$', '&', apostrophe,
        '(', ')', '*', '+', ',', ';', '=', '%', '@'].contains r

/-- Go `url.parseHost`. -/
def parseHost (host : GoString) : Except GoError GoString :=
  if "[".toList.isPrefixOf host then
    match strings.LastIndex host "]".toList with
    | none => .error "missing ']' in host"
    | some i =>
      if !validOptionalPort (host.drop (i + 1)) then .error "invalid port after host"
      else
        match strings.Index (host.take i) "%25".toList with
        | some zone =>
          match unescape (host.take zone) encodeHost with
          | .error e => .error e
          | .ok host1 =>
            match unescape ((host.take i).drop zone) encodeZone with
            | .error e => .error e
            | .ok host2 =>
              match unescape (host.drop i) encodeHost with
              | .error e => .error e
              | .ok host3 => .ok (host1 ++ host2 ++ host3)
        | none => unescape host encodeHost
  else
    match strings.LastIndex host ":".toList with
    | some i =>
      if !validOptionalPort (host.drop i) then .error "invalid port after host"
      else unescape host encodeHost
    | none => unescape host encodeHost

/-- Go `url.parseAuthority`. -/
def parseAuthority (authority : GoString) : Except GoError (Option Userinfo × GoString) :=
  match strings.LastIndex authority "@".toList with
  | none =>
    match parseHost authority with
    | .error e => .error e
    | .ok host => .ok (none, host)
  | some i =>
    match parseHost (authority.drop (i + 1)) with
    | .error e => .error e
    | .ok host =>
      let userinfo := authority.take i
      if !validUserinfo userinfo then .error "net/url: invalid userinfo"
      else if !strings.Contains userinfo ":".toList then
        match unescape userinfo encodeUserPassword with
        | .error e => .error e
        | .ok userinfo => .ok (some ⟨userinfo, [], false⟩, host)
      else
        match strings.Cut userinfo ":".toList with
        | (username, password, _) =>
          match unescape username encodeUserPassword with
          | .error e => .error e
          | .ok username =>
            match unescape password encodeUserPassword with
            | .error e => .error e
            | .ok password => .ok (some ⟨username, password, true⟩, host)

/-- Go `(*URL).setPath`. -/
def URL.setPath (u : URL) (p : GoString) : Except GoError URL :=
  match unescape p encodePath with
  | .error e => .error e
  | .ok path =>
    if p = escape path encodePath then .ok { u with Path := path, RawPath := [] }
    else .ok { u with Path := path, RawPath := p }

/-- Go `(*URL).setFragment`. -/
def URL.setFragment (u : URL) (f : GoString) : Except GoError URL :=
  match unescape f encodeFragment with
  | .error e => .error e
  | .ok frag =>
    if f = escape frag encodeFragment then .ok { u with Fragment := frag, RawFragment := [] }
    else .ok { u with Fragment := frag, RawFragment := f }

/-- The last part of Go `url.parse`, from the authority on: `rest` is what follows the
scheme and precedes the query. -/
def parseAuthorityAndPath (u : URL) (viaRequest : Bool) (rest : GoString) : Except GoError URL :=
  if (u.Scheme ≠ [] || (!viaRequest && !"///".toList.isPrefixOf rest))
      && "//".toList.isPrefixOf rest then
    let authority0 := rest.drop 2
    let (authority, rest) :=
      match strings.Index authority0 "/".toList with
      | some i => (authority0.take i, authority0.drop i)
      | none => (authority0, [])
    match parseAuthority authority with
    | .error e => .error e
    | .ok (user, host) => URL.setPath { u with User := user, Host := host } rest
  else if u.Scheme ≠ [] && "/".toList.isPrefixOf rest then
    URL.setPath { u with OmitHost := true } rest
  else URL.setPath u rest

/-- Go `url.parse` (the unexported worker of `Parse` and `ParseRequestURI`). -/
def parse (rawURL : GoString) (viaRequest : Bool) : Except GoError URL :=
  if stringContainsCTLByte rawURL then .error "net/url: invalid control character in URL"
  else if rawURL = [] && viaRequest then .error "empty url"
  else if rawURL = "*".toList then .ok { URL.zero with Path := "*".toList }
  else
    match getScheme rawURL with
    | .error e => .error e
    | .ok (scheme, rest) =>
      let u := { URL.zero with Scheme := scheme.map Char.toLower }
      let (u, rest) :=
        if "?".toList.isSuffixOf rest && strings.CountByte rest '?' = 1 then
          ({ u with ForceQuery := true }, rest.take (rest.length - 1))
        else
          match strings.Cut rest "?".toList with
          | (before, after, _) => ({ u with RawQuery := after }, before)
      if !"/".toList.isPrefixOf rest then
        if u.Scheme ≠ [] then .ok { u with Opaque := rest }
        else if viaRequest then .error "invalid URI for request"
        else if strings.Contains (strings.Cut rest "/".toList).1 ":".toList then
          .error "first path segment in URL cannot contain colon"
        else parseAuthorityAndPath u viaRequest rest
      else parseAuthorityAndPath u viaRequest rest

/-- Go `url.Parse`. -/
def Parse (rawURL : GoString) : Except GoError URL :=
  match strings.Cut rawURL "#".toList with
  | (u, frag, _) =>
    match parse u false with
    | .error e => .error e
    | .ok url => if frag = [] then .ok url else URL.setFragment url frag

/-- Go `url.validEncoded`. -/
def validEncoded (s : GoString) (mode : encoding) : Bool :=
  s.all fun c =>
    ['!', '$', '&', apostrophe, '(', ')', '*', '+', ',', ';', '=', ':', '@',
      '[', ']', '%'].contains c || !shouldEscape c mode

/-- Go `(*URL).EscapedPath`. -/
def URL.EscapedPath (u : URL) : GoString :=
  if u.RawPath ≠ [] && validEncoded u.RawPath encodePath
      && (match unescape u.RawPath encodePath with
          | .ok p => p == u.Path
          | .error _ => false) then u.RawPath
  else if u.Path = "*".toList then "*".toList
  else escape u.Path encodePath

/-- Go `(*URL).EscapedFragment`. -/
def URL.EscapedFragment (u : URL) : GoString :=
  if u.RawFragment ≠ [] && validEncoded u.RawFragment encodeFragment
      && (match unescape u.RawFragment encodeFragment with
          | .ok f => f == u.Fragment
          | .error _ => false) then u.RawFragment
  else escape u.Fragment encodeFragment

/-- Go `(*Userinfo).String`. -/
def Userinfo.String (u : Userinfo) : GoString :=
  escape u.username encodeUserPassword ++
    (if u.passwordSet then ':' :: escape u.password encodeUserPassword else [])

/-- Go `(*URL).String`: the pieces are appended to the buffer in source order. -/
def URL.String (u : URL) : GoString :=
  let buf : GoString := if u.Scheme ≠ [] then u.Scheme ++ [':'] else []
  let buf : GoString :=
    if u.Opaque ≠ [] then buf ++ u.Opaque
    else
      let buf : GoString :=
        if u.Scheme ≠ [] || u.Host ≠ [] || u.User.isSome then
          if u.OmitHost && u.Host = [] && u.User.isNone then buf
          else
            let buf : GoString :=
              if u.Host ≠ [] || u.Path ≠ [] || u.User.isSome then buf ++ "//".toList else buf
            let buf : GoString :=
              match u.User with
              | some ui => buf ++ ui.String ++ ['@']
              | none => buf
            if u.Host ≠ [] then buf ++ escape u.Host encodeHost else buf
        else buf
      let path := u.EscapedPath
      let buf : GoString :=
        if path ≠ [] && path.head? ≠ some '/' && u.Host ≠ [] then buf ++ ['/'] else buf
      let buf : GoString :=
        if buf.length = 0 && strings.Contains (strings.Cut path "/".toList).1 ":".toList then
          buf ++ "./".toList
        else buf
      buf ++ path
  let buf : GoString :=
    if u.ForceQuery || u.RawQuery ≠ [] then buf ++ ['?'] ++ u.RawQuery else buf
  if u.Fragment ≠ [] then buf ++ ['#'] ++ u.EscapedFragment else buf

end url

/-! ## packages io, bytes, io/ioutil

Streams are modelled by what a full read observes: the bytes from the current offset on
and the error that ends the read.  The programs only ever read a body in full
(`ioutil.ReadAll`), close it, and replace it by a reader over the bytes read. -/

namespace io

/-- A body stream (`io.ReadCloser`): the bytes it holds, the read offset, the error a
read reports once the bytes are exhausted (`none` for a clean `io.EOF`), and the error
`Close` returns (`none` for `nil`). -/
structure ReadCloser where
  data : List Byte
  off : Nat
  readErr : Option GoError
  closeErr : Option GoError
deriving DecidableEq, Repr

/-- The `Close` method. -/
def ReadCloser.Close (rc : ReadCloser) : Option GoError := rc.closeErr

end io

namespace bytes

/-- Go `bytes.Reader`: a slice and the current reading index. -/
structure Reader where
  s : List Byte
  i : Nat
deriving DecidableEq, Repr

/-- Go `bytes.NewReader`. -/
def NewReader (b : List Byte) : Reader := { s := b, i := 0 }

end bytes

namespace ioutil

/-- Go `ioutil.ReadAll`: reads from the current offset until EOF or an error and returns
the bytes read together with the error (`none` for `nil`). -/
def ReadAll (r : io.ReadCloser) : List Byte × Option GoError :=
  (r.data.drop r.off, r.readErr)

/-- Go `ioutil.NopCloser` of a `bytes.Reader`: reading never fails and `Close` returns `nil`. -/
def NopCloser (r : bytes.Reader) : io.ReadCloser :=
  { data := r.s, off := r.i, readErr := none, closeErr := none }

end ioutil

/-! ## package encoding/json -/

namespace json

/-- Go `json.Marshal` on the record types of the two programs.  `Marshal` fails only on
values JSON cannot represent (channels, functions, complex numbers, non-finite floats,
cyclic data); a record of strings, integers, byte slices and `map[string][]string` has
none, so the call succeeds.  The text of the encoding is not modelled: the encoded line is
represented by the record it encodes. -/
def Marshal {α : Type} (v : α) : Except GoError α := .ok v

end json

/-! ## package net/http -/

namespace http

/-- Go `http.Header`, a `map[string][]string`, as an association list. -/
abbrev Header := List (GoString × List GoString)

/-- `Header.Set` on an already canonical key. -/
def Header.Set (h : Header) (key value : GoString) : Header :=
  (key, [value]) :: h.filter fun kv => kv.1 ≠ key

/-- The fields of Go `http.Request` the programs and the forwarding engine touch. -/
structure Request where
  Method : GoString
  URL : url.URL
  Proto : GoString
  Header : Header
  Body : io.ReadCloser
  ContentLength : Int
  Host : GoString
  RemoteAddr : GoString
  RequestURI : GoString
deriving DecidableEq, Repr

/-- The fields of Go `http.Response` the programs touch.  `Request` is the request that
was sent to obtain this response. -/
structure Response where
  StatusCode : Int
  Header : Header
  Body : io.ReadCloser
  Request : Request
deriving DecidableEq, Repr

/-- Go `http.NoBody`. -/
def NoBody : io.ReadCloser := { data := [], off := 0, readErr := none, closeErr := none }

/-- Go `http.Server`, the fields `main` sets (durations in seconds). -/
structure Server (H : Type) where
  Addr : GoString
  Handler : H
  ReadTimeout : Nat
  WriteTimeout : Nat
  MaxHeaderBytes : Nat

/-! ### `http.ServeMux`

`main` registers the `ProxyHandler` on the pattern `/` of a new `ServeMux` and makes the
mux the handler of the server.  The mux answers some requests itself (a `*` request URI,
a path that is not in canonical form) and passes the others to the registered handler.
The definitions follow `net/http/server.go`, `path.Clean` and `net.SplitHostPort`. -/

/-- The elements of a slash-separated path: the byte runs between the slashes. -/
def pathElements : GoString → List GoString
  | [] => [[]]
  | c :: rest =>
    if c = '/' then [] :: pathElements rest
    else
      match pathElements rest with
      | [] => [[c]]
      | e :: es => (c :: e) :: es

/-- The element loop of Go `path.Clean`.  `kept` holds the elements written so far, last
one first.  An empty element and `.` are dropped; `..` removes the element before it, is
dropped at the root of a rooted path, and is kept at the start of a relative path. -/
def cleanElements (rooted : Bool) : List GoString → List GoString → List GoString
  | [], kept => kept
  | e :: es, kept =>
    if e = [] || e = ".".toList then cleanElements rooted es kept
    else if e = "..".toList then
      match kept with
      | k :: ks =>
        if k = "..".toList then cleanElements rooted es (e :: kept)
        else cleanElements rooted es ks
      | [] => if rooted then cleanElements rooted es [] else cleanElements rooted es [e]
    else cleanElements rooted es (e :: kept)

/-- Go `path.Clean`. -/
def pathClean (path : GoString) : GoString :=
  if path = [] then ".".toList
  else
    let rooted := path.head? = some '/'
    let body := "/".toList.intercalate (cleanElements rooted (pathElements path) []).reverse
    let out := if rooted then '/' :: body else body
    if out = [] then ".".toList else out

/-- Go `http.cleanPath`: the canonical form of a request path. -/
def cleanPath (p : GoString) : GoString :=
  if p = [] then "/".toList
  else
    let p := if p.head? ≠ some '/' then '/' :: p else p
    let np := pathClean p
    if p.getLast? = some '/' && np ≠ "/".toList then
      if p.length = np.length + 1 && np.isPrefixOf p then p else np ++ "/".toList
    else np

/-- Go `net.SplitHostPort`, the host part of the result (`none` on error). -/
def splitHost (hostport : GoString) : Option GoString :=
  match strings.LastIndex hostport ":".toList with
  | none => none
  | some i =>
    if hostport.head? = some '[' then
      match strings.Index hostport "]".toList with
      | none => none
      | some close =>
        if close + 1 = hostport.length then none
        else if close + 1 = i then
          if strings.Contains (hostport.drop 1) "[".toList then none
          else if strings.Contains (hostport.drop (close + 1)) "]".toList then none
          else some ((hostport.take close).drop 1)
        else none
    else
      let host := hostport.take i
      if strings.Contains host ":".toList then none
      else if strings.Contains hostport "[".toList then none
      else if strings.Contains hostport "]".toList then none
      else some host

/-- Go `http.stripHostPort`. -/
def stripHostPort (h : GoString) : GoString :=
  if !strings.Contains h ":".toList then h
  else
    match splitHost h with
    | none => h
    | some host => host

/-- Go `http.muxEntry`. -/
structure muxEntry (H : Type) where
  h : H
  pattern : GoString

/-- Go `http.ServeMux`: the map `m` of registered patterns, the entries `es` whose
pattern ends in a slash, longest first, and whether a pattern names a host. -/
structure ServeMux (H : Type) where
  m : List (GoString × muxEntry H)
  es : List (muxEntry H)
  hosts : Bool

/-- Go `http.NewServeMux`. -/
def NewServeMux {H : Type} : ServeMux H := { m := [], es := [], hosts := false }

/-- Go `http.appendSorted`: inserts before the first entry with a shorter pattern. -/
def appendSorted {H : Type} (es : List (muxEntry H)) (e : muxEntry H) : List (muxEntry H) :=
  es.takeWhile (fun x => !decide (x.pattern.length < e.pattern.length)) ++ e ::
    es.dropWhile (fun x => !decide (x.pattern.length < e.pattern.length))

/-- Go `(*ServeMux).Handle`; the handler passed by the programs is never `nil`. -/
def ServeMux.Handle {H : Type} (mux : ServeMux H) (pattern : GoString) (handler : H) :
    Except GoError (ServeMux H) :=
  if pattern = [] then .error "http: invalid pattern"
  else if (mux.m.lookup pattern).isSome then .error "http: multiple registrations"
  else
    let e : muxEntry H := { h := handler, pattern := pattern }
    .ok
      { m := (pattern, e) :: mux.m
        es := if pattern.getLast? = some '/' then appendSorted mux.es e else mux.es
        hosts := if pattern.head? ≠ some '/' then true else mux.hosts }

/-- Go `(*ServeMux).match`: the exact entry, or the longest registered prefix. -/
def ServeMux.matchPath {H : Type} (mux : ServeMux H) (path : GoString) :
    Option (muxEntry H) :=
  match mux.m.lookup path with
  | some v => some v
  | none => mux.es.find? fun e => e.pattern.isPrefixOf path

/-- Go `(*ServeMux).handler`; `none` stands for `NotFoundHandler()`. -/
def ServeMux.handler {H : Type} (mux : ServeMux H) (host path : GoString) :
    Option (muxEntry H) :=
  match (if mux.hosts then mux.matchPath (host ++ path) else none) with
  | some e => some e
  | none => mux.matchPath path

/-- Go `(*ServeMux).shouldRedirectRLocked`. -/
def ServeMux.shouldRedirectRLocked {H : Type} (mux : ServeMux H) (host path : GoString) :
    Bool :=
  if (mux.m.lookup path).isSome || (mux.m.lookup (host ++ path)).isSome then false
  else if path.length = 0 then false
  else if (mux.m.lookup (path ++ "/".toList)).isSome
      || (mux.m.lookup (host ++ path ++ "/".toList)).isSome then
    path.getLast? ≠ some '/'
  else false

/-- The mux after `Handle("/", h)` on a new mux: the one pattern `/`. -/
def rootMux {H : Type} (h : H) : ServeMux H :=
  { m := [("/".toList, { h := h, pattern := "/".toList })]
    es := [{ h := h, pattern := "/".toList }]
    hosts := false }

/-- What the mux decides for a request: the handler it selects. -/
inductive Selected (H : Type)
  /-- `RedirectHandler(url, StatusMovedPermanently)` -/
  | redirect (url : GoString)
  /-- `NotFoundHandler()` -/
  | notFound
  /-- a registered handler -/
  | registered (h : H)

/-- Go `(*ServeMux).Handler`. -/
def ServeMux.Handler {H : Type} (mux : ServeMux H) (r : Request) : Selected H :=
  if r.Method = "CONNECT".toList then
    if mux.shouldRedirectRLocked r.URL.Host r.URL.Path then
      .redirect ({ url.URL.zero with
        Path := r.URL.Path ++ "/".toList, RawQuery := r.URL.RawQuery } : url.URL).String
    else
      match mux.handler r.Host r.URL.Path with
      | some e => .registered e.h
      | none => .notFound
  else
    let host := stripHostPort r.Host
    let path := cleanPath r.URL.Path
    if mux.shouldRedirectRLocked host path then
      .redirect ({ url.URL.zero with
        Path := path ++ "/".toList, RawQuery := r.URL.RawQuery } : url.URL).String
    else if path ≠ r.URL.Path then
      .redirect ({ url.URL.zero with Path := path, RawQuery := r.URL.RawQuery } : url.URL).String
    else
      match mux.handler host r.URL.Path with
      | some e => .registered e.h
      | none => .notFound

/-- What the client of one request to the mux gets. -/
inductive Routed (σ : Type)
  /-- 400 Bad Request, for the request URI `*` -/
  | badRequest
  /-- 301 Moved Permanently to `url` -/
  | redirected (url : GoString)
  /-- 404 Not Found -/
  | notFound
  /-- the result of the registered handler -/
  | handled (result : σ)
deriving DecidableEq, Repr

/-- Go `(*ServeMux).ServeHTTP`; `serve` is the `ServeHTTP` method of the registered
handlers. -/
def ServeMux.ServeHTTP {H W σ : Type} (serve : H → W → Request → W × Except GoError σ)
    (mux : ServeMux H) (w : W) (r : Request) : W × Except GoError (Routed σ) :=
  if r.RequestURI = "*".toList then (w, .ok .badRequest)
  else
    match mux.Handler r with
    | .redirect url => (w, .ok (.redirected url))
    | .notFound => (w, .ok .notFound)
    | .registered h =>
      match serve h w r with
      | (w, .error err) => (w, .error err)
      | (w, .ok result) => (w, .ok (.handled result))

end http

/-! ## package net/http/httputil

`main` builds the forwarding engine with `httputil.NewSingleHostReverseProxy` and sets
`parse_response` as its `ModifyResponse` hook.  The engine is modelled as far as the
programs observe it: which request reaches the transport, which response reaches the
hook (its `Request` is the outbound request), and what is done with the result of the
hook. -/

namespace httputil

/-- Go `httputil.singleJoiningSlash`. -/
def singleJoiningSlash (a b : GoString) : GoString :=
  let aslash := "/".toList.isSuffixOf a
  let bslash := "/".toList.isPrefixOf b
  if aslash && bslash then a ++ b.drop 1
  else if !aslash && !bslash then a ++ "/".toList ++ b
  else a ++ b

/-- Go `httputil.joinURLPath`. -/
def joinURLPath (a b : url.URL) : GoString × GoString :=
  if a.RawPath = [] && b.RawPath = [] then (singleJoiningSlash a.Path b.Path, [])
  else
    let apath := a.EscapedPath
    let bpath := b.EscapedPath
    let aslash := "/".toList.isSuffixOf apath
    let bslash := "/".toList.isPrefixOf bpath
    if aslash && bslash then (a.Path ++ b.Path.drop 1, apath ++ bpath.drop 1)
    else if !aslash && !bslash then
      (a.Path ++ "/".toList ++ b.Path, apath ++ "/".toList ++ bpath)
    else (a.Path ++ b.Path, apath ++ bpath)

/-- The `Director` closure built by Go `httputil.NewSingleHostReverseProxy(target)`. -/
def director (target : url.URL) (req : http.Request) : http.Request :=
  let targetQuery := target.RawQuery
  let joined := joinURLPath target req.URL
  let u : url.URL :=
    { req.URL with
      Scheme := target.Scheme
      Host := target.Host
      Path := joined.1
      RawPath := joined.2
      RawQuery :=
        if targetQuery = [] || req.URL.RawQuery = [] then targetQuery ++ req.URL.RawQuery
        else targetQuery ++ "&".toList ++ req.URL.RawQuery }
  let header :=
    if req.Header.any fun kv => kv.1 = "User-Agent".toList then req.Header
    else http.Header.Set req.Header "User-Agent".toList []
  { req with URL := u, Header := header }

/-- What the programs hand back from a `ModifyResponse` hook: the response as the hook
left it and the returned `error` (`none` for `nil`). -/
abbrev HookResult := http.Response × Option GoError

/-- Go `httputil.ReverseProxy` over a world `W` of package-level state.  `Director`,
`Transport` and `ModifyResponse` are the Go fields.  `outHeader` and `resHeader` stand
for the header rewriting the engine does on its own (removal of hop-by-hop headers,
`X-Forwarded-For`), which is left unspecified. -/
structure ReverseProxy (W : Type) where
  Director : http.Request → http.Request
  Transport : http.Request → Except GoError http.Response
  ModifyResponse : Option (W → http.Response → W × Except GoError HookResult)
  outHeader : http.Request → http.Header
  resHeader : http.Response → http.Header

/-- Go `httputil.NewSingleHostReverseProxy`; the transport left `nil` by the Go function
is `http.DefaultTransport`, passed in as `net`. -/
def NewSingleHostReverseProxy {W : Type} (net : http.Request → Except GoError http.Response)
    (outHeader : http.Request → http.Header) (resHeader : http.Response → http.Header)
    (target : url.URL) : ReverseProxy W :=
  { Director := director target, Transport := net, ModifyResponse := none,
    outHeader := outHeader, resHeader := resHeader }

/-- What the client of one proxied request gets. -/
inductive Served
  /-- the default error handler answered 502 Bad Gateway -/
  | badGateway
  /-- a 101 response, handed over to the protocol upgrade path -/
  | upgraded (StatusCode : Int) (Header : http.Header)
  /-- status line, headers and the bytes copied from the response body -/
  | delivered (StatusCode : Int) (Header : http.Header) (Body : List Byte)
      (copyErr : Option GoError)
deriving DecidableEq, Repr

/-- First half of Go `(*ReverseProxy).ServeHTTP`: the outbound request given to the
transport.  The inbound request is cloned, the body is dropped when `ContentLength` is 0,
the `Director` runs, and the engine rewrites the headers. -/
def ReverseProxy.outreq {W : Type} (p : ReverseProxy W) (req : http.Request) : http.Request :=
  let outreq := req
  let outreq := if req.ContentLength = 0 then { outreq with Body := http.NoBody } else outreq
  let outreq := p.Director outreq
  { outreq with Header := p.outHeader outreq }

/-- Second half of Go `(*ReverseProxy).ServeHTTP`, from the arrival of the upstream
response `res` (with `res.Request` set to the outbound request by the transport): the
hook runs, then the response is copied to the client.  A panic of the hook propagates. -/
def ReverseProxy.respond {W : Type} (p : ReverseProxy W) (w : W) (res : http.Response) :
    W × Except GoError Served :=
  let res := if res.StatusCode = 101 then res else { res with Header := p.resHeader res }
  let hooked : W × Except GoError HookResult :=
    match p.ModifyResponse with
    | none => (w, .ok (res, none))
    | some hook => hook w res
  match hooked with
  | (w, .error e) => (w, .error e)
  | (w, .ok (_, some _)) => (w, .ok .badGateway)
  | (w, .ok (res, none)) =>
    if res.StatusCode = 101 then (w, .ok (.upgraded res.StatusCode res.Header))
    else
      (w, .ok (.delivered res.StatusCode res.Header (ioutil.ReadAll res.Body).1
        (ioutil.ReadAll res.Body).2))

/-- Go `(*ReverseProxy).ServeHTTP`. -/
def ReverseProxy.ServeHTTP {W : Type} (p : ReverseProxy W) (w : W) (req : http.Request) :
    W × Except GoError Served :=
  let outreq := p.outreq req
  match p.Transport outreq with
  | .error _ => (w, .ok .badGateway)
  | .ok res => p.respond w { res with Request := outreq }

end httputil

/-! ## src/proxy/proxy.go -/

namespace Proxy

/-- Go `type ResponseLog struct`. -/
structure ResponseLog where
  Status_code : Int
  Body : GoString
  Headers : http.Header
deriving DecidableEq, Repr

/-- Go `type RequestLog struct`. -/
structure RequestLog where
  Payload : GoString
  Protocol : GoString
  Path : GoString
  Method : GoString
  Headers : http.Header
deriving DecidableEq, Repr

/-- Go `type RecordLog struct`. -/
structure RecordLog where
  Request : RequestLog
  Response : ResponseLog
deriving DecidableEq, Repr

/-- The package-level variables `new_host`, `remote`, `current_payload`, and the lines
printed to standard output so far. -/
structure World where
  new_host : GoString
  remote : url.URL
  current_payload : List Byte
  stdout : List RecordLog
deriving DecidableEq, Repr

/-- The state at program start: `var new_host string`, `var remote = url.URL{}`,
`var current_payload []byte`, nothing printed. -/
def World.init : World :=
  { new_host := [], remote := url.URL.zero, current_payload := [], stdout := [] }

/-- Go `func dump_response(resp *http.Response, body []byte)`. -/
def dump_response (w : World) (resp : http.Response) (body : List Byte) :
    World × Except GoError Unit :=
  let req : RecordLog :=
    { Request :=
        { Payload := Go.string w.current_payload
          Protocol := resp.Request.Proto
          Path := resp.Request.URL.String
          Method := resp.Request.Method
          Headers := resp.Request.Header }
      Response :=
        { Status_code := resp.StatusCode
          Body := Go.string body
          Headers := resp.Header } }
  let w := { w with current_payload := [] }
  match json.Marshal req with
  | .error err => (w, .error err)
  | .ok log_obj => ({ w with stdout := w.stdout ++ [log_obj] }, .ok ())

/-- Go `func parse_response(resp *http.Response) (err error)`.  The result carries the
response as the function leaves it and the returned error. -/
def parse_response (w : World) (resp : http.Response) :
    World × Except GoError httputil.HookResult :=
  match ioutil.ReadAll resp.Body with
  | (_, some err) => (w, .error err)
  | (b, none) =>
    match resp.Body.Close with
    | some err => (w, .error err)
    | none =>
      let body := ioutil.NopCloser (bytes.NewReader b)
      let resp := { resp with Body := body }
      match dump_response w resp b with
      | (w, .error err) => (w, .error err)
      | (w, .ok _) => (w, .ok (resp, none))

/-- Go `type ProxyHandler struct { p *httputil.ReverseProxy }`.  The engine is
represented by its `ServeHTTP` method, with result type `σ`. -/
structure ProxyHandler (σ : Type) where
  p : World → http.Request → World × Except GoError σ

/-- Go `func (ph *ProxyHandler) ServeHTTP(w http.ResponseWriter, r *http.Request)`. -/
def ProxyHandler.ServeHTTP {σ : Type} (ph : ProxyHandler σ) (w : World) (r : http.Request) :
    World × Except GoError σ :=
  match ioutil.ReadAll r.Body with
  | (_, some err) => (w, .error err)
  | (b, none) =>
    match r.Body.Close with
    | some err => (w, .error err)
    | none =>
      let body := ioutil.NopCloser (bytes.NewReader b)
      let w := { w with current_payload := b }
      let r := { r with Body := body }
      let r := { r with Host := w.remote.Host }
      ph.p w r

/-- The command line of the program: the value of `-host` when the flag is given. -/
structure Flags where
  host : Option GoString

/-- Go `func main()` up to `server.ListenAndServe()`: the world it leaves and the server
it starts, whose handler is the mux with the `ProxyHandler` registered on `/`, or the
panic.  `net` is `http.DefaultTransport`; `outHeader` and `resHeader` are the engine's
header rewriting.  The `remote` assigned by `:=` is a new local
variable of `main`; the package-level `remote` is not assigned. -/
def main (net : http.Request → Except GoError http.Response)
    (outHeader : http.Request → http.Header) (resHeader : http.Response → http.Header)
    (flags : Flags) (w : World) :
    World × Except GoError (http.Server (http.ServeMux (ProxyHandler httputil.Served))) :=
  let host_ptr := flags.host.getD "https://example.com".toList
  let w := { w with new_host := host_ptr }
  let mux : http.ServeMux (ProxyHandler httputil.Served) := http.NewServeMux
  match url.Parse w.new_host with
  | .error err => (w, .error err)
  | .ok remote =>
    let proxy : httputil.ReverseProxy World :=
      httputil.NewSingleHostReverseProxy net outHeader resHeader remote
    let proxy := { proxy with ModifyResponse := some parse_response }
    match mux.Handle "/".toList { p := proxy.ServeHTTP } with
    | .error err => (w, .error err)
    | .ok mux =>
      let server : http.Server (http.ServeMux (ProxyHandler httputil.Served)) :=
        { Addr := ":8080".toList
          Handler := mux
          ReadTimeout := 10
          WriteTimeout := 10
          MaxHeaderBytes := 2 ^ 20 }
      (w, .ok server)

/-- What the server started by `main` does with one inbound request: it calls
`ServeHTTP` of its handler, the mux, which may call `ProxyHandler.ServeHTTP`. -/
def serve {σ : Type} (srv : http.Server (http.ServeMux (ProxyHandler σ))) (w : World)
    (r : http.Request) : World × Except GoError (http.Routed σ) :=
  srv.Handler.ServeHTTP ProxyHandler.ServeHTTP w r

/-- The handler `main` installs when the origin parses to `target`: the single-host
engine for `target` with `parse_response` as its `ModifyResponse` hook. -/
def installed (net : http.Request → Except GoError http.Response)
    (outHeader : http.Request → http.Header) (resHeader : http.Response → http.Header)
    (target : url.URL) : ProxyHandler httputil.Served :=
  { p := httputil.ReverseProxy.ServeHTTP
      { Director := httputil.director target
        Transport := net
        ModifyResponse := some parse_response
        outHeader := outHeader
        resHeader := resHeader } }

end Proxy

/-! ## src/parser/proxy/proxy.go -/

namespace ParserProxy

/-- Go `type ResponseLog struct`; here `Body` is a `[]byte`. -/
structure ResponseLog where
  Status_code : Int
  Body : List Byte
  Headers : http.Header
deriving DecidableEq, Repr

/-- Go `type RequestLog struct`. -/
structure RequestLog where
  Payload : GoString
  Protocol : GoString
  Path : GoString
  Method : GoString
  Headers : http.Header
deriving DecidableEq, Repr

/-- Go `type RecordLog struct`. -/
structure RecordLog where
  Request : RequestLog
  Response : ResponseLog
deriving DecidableEq, Repr

/-- The package-level variables `new_host`, `remote`, `current_payload`, and the lines
printed to standard output so far. -/
structure World where
  new_host : GoString
  remote : url.URL
  current_payload : List Byte
  stdout : List RecordLog
deriving DecidableEq, Repr

/-- The state at program start. -/
def World.init : World :=
  { new_host := [], remote := url.URL.zero, current_payload := [], stdout := [] }

/-- Go `func dump_response(resp *http.Response, body []byte)`. -/
def dump_response (w : World) (resp : http.Response) (body : List Byte) :
    World × Except GoError Unit :=
  let req : RecordLog :=
    { Request :=
        { Payload := Go.string w.current_payload
          Protocol := resp.Request.Proto
          Path := resp.Request.URL.String
          Method := resp.Request.Method
          Headers := resp.Request.Header }
      Response :=
        { Status_code := resp.StatusCode
          Body := body
          Headers := resp.Header } }
  let w := { w with current_payload := [] }
  match json.Marshal req with
  | .error err => (w, .error err)
  | .ok log_obj => ({ w with stdout := w.stdout ++ [log_obj] }, .ok ())

/-- Go `func parse_response(resp *http.Response) (err error)`. -/
def parse_response (w : World) (resp : http.Response) :
    World × Except GoError httputil.HookResult :=
  match ioutil.ReadAll resp.Body with
  | (_, some err) => (w, .error err)
  | (b, none) =>
    match resp.Body.Close with
    | some err => (w, .error err)
    | none =>
      let body := ioutil.NopCloser (bytes.NewReader b)
      let resp := { resp with Body := body }
      match dump_response w resp b with
      | (w, .error err) => (w, .error err)
      | (w, .ok _) => (w, .ok (resp, none))

/-- Go `type ProxyHandler struct { p *httputil.ReverseProxy }`. -/
structure ProxyHandler (σ : Type) where
  p : World → http.Request → World × Except GoError σ

/-- Go `func (ph *ProxyHandler) ServeHTTP(w http.ResponseWriter, r *http.Request)`. -/
def ProxyHandler.ServeHTTP {σ : Type} (ph : ProxyHandler σ) (w : World) (r : http.Request) :
    World × Except GoError σ :=
  match ioutil.ReadAll r.Body with
  | (_, some err) => (w, .error err)
  | (b, none) =>
    match r.Body.Close with
    | some err => (w, .error err)
    | none =>
      let body := ioutil.NopCloser (bytes.NewReader b)
      let w := { w with current_payload := b }
      let r := { r with Body := body }
      let r := { r with Host := w.remote.Host }
      ph.p w r

/-- The command line: the values of `-host` and `-port` when given. -/
structure Flags where
  host : Option GoString
  port : Option Int

/-- Go `func main()` up to `server.ListenAndServe()`.  This variant does not assign
`new_host` and listens on the port of the `-port` flag; the handler of the server is the
mux with the `ProxyHandler` registered on `/`. -/
def main (net : http.Request → Except GoError http.Response)
    (outHeader : http.Request → http.Header) (resHeader : http.Response → http.Header)
    (flags : Flags) (w : World) :
    World × Except GoError (http.Server (http.ServeMux (ProxyHandler httputil.Served))) :=
  let host_ptr := flags.host.getD "https://example.com".toList
  let proxy_port := flags.port.getD 8080
  let mux : http.ServeMux (ProxyHandler httputil.Served) := http.NewServeMux
  match url.Parse host_ptr with
  | .error err => (w, .error err)
  | .ok remote =>
    let proxy : httputil.ReverseProxy World :=
      httputil.NewSingleHostReverseProxy net outHeader resHeader remote
    let proxy := { proxy with ModifyResponse := some parse_response }
    match mux.Handle "/".toList { p := proxy.ServeHTTP } with
    | .error err => (w, .error err)
    | .ok mux =>
      let server : http.Server (http.ServeMux (ProxyHandler httputil.Served)) :=
        { Addr := ":".toList ++ (toString proxy_port).toList
          Handler := mux
          ReadTimeout := 10
          WriteTimeout := 10
          MaxHeaderBytes := 2 ^ 20 }
      (w, .ok server)

/-- What the server started by `main` does with one inbound request. -/
def serve {σ : Type} (srv : http.Server (http.ServeMux (ProxyHandler σ))) (w : World)
    (r : http.Request) : World × Except GoError (http.Routed σ) :=
  srv.Handler.ServeHTTP ProxyHandler.ServeHTTP w r

/-- The handler `main` installs when the origin parses to `target`. -/
def installed (net : http.Request → Except GoError http.Response)
    (outHeader : http.Request → http.Header) (resHeader : http.Response → http.Header)
    (target : url.URL) : ProxyHandler httputil.Served :=
  { p := httputil.ReverseProxy.ServeHTTP
      { Director := httputil.director target
        Transport := net
        ModifyResponse := some parse_response
        outHeader := outHeader
        resHeader := resHeader } }

end ParserProxy

/-! ## Exchanges in flight (src/proxy/proxy.go)

The HTTP server runs every request in its own goroutine, so the request-handling step
of one exchange (`ProxyHandler.ServeHTTP` up to the hand-over to the engine) and the
response-hook step of another (`parse_response`, called by the engine when the upstream
response has arrived) can alternate in any order.  A schedule lists the steps in the
order they run; each step is atomic. -/

namespace Proxy

/-- One exchange: the inbound request and the response the upstream sends for it. -/
structure Exchange where
  request : http.Request
  reply : http.Response
deriving DecidableEq, Repr

/-- The request body of an exchange: the bytes a full read of its stream yields. -/
def Exchange.body (x : Exchange) : List Byte := (ioutil.ReadAll x.request.Body).1

/-- A step of a schedule, by exchange number. -/
inductive Step
  | serve (i : Nat)
  | hook (i : Nat)
deriving DecidableEq, Repr

/-- The proxy with exchanges in flight: the world, the outbound requests whose response
is pending, and the records printed so far, each with the exchange whose hook printed it. -/
structure Sys where
  world : World
  inflight : List (Nat × http.Request)
  emitted : List (Nat × RecordLog)
deriving DecidableEq, Repr

/-- No exchange started yet. -/
def Sys.init (w : World) : Sys := { world := w, inflight := [], emitted := [] }

/-- The engine stopped at the hand-over: it returns the request it was given. -/
def handoff : ProxyHandler http.Request := { p := fun w r => (w, .ok r) }

/-- One step.  `serve i` runs `ProxyHandler.ServeHTTP` on the request of exchange `i`;
the engine turns the request it is handed into the outbound request (`prep`) and waits.
`hook i` runs `parse_response` on the reply of exchange `i`, whose `Request` is that
outbound request.  A step of an unknown exchange, or a hook without a pending request,
does nothing. -/
def step (prep : http.Request → http.Request) (xs : List Exchange) (s : Sys) : Step → Sys
  | .serve i =>
    match xs[i]? with
    | none => s
    | some x =>
      match ProxyHandler.ServeHTTP handoff s.world x.request with
      | (w, .ok r) => { s with world := w, inflight := (i, prep r) :: s.inflight }
      | (w, .error _) => { s with world := w }
  | .hook i =>
    match xs[i]?, s.inflight.lookup i with
    | some x, some outreq =>
      let w := (parse_response s.world { x.reply with Request := outreq }).1
      { world := w
        inflight := s.inflight.filter fun e => e.1 ≠ i
        emitted := s.emitted ++ (w.stdout.drop s.world.stdout.length).map fun r => (i, r) }
    | _, _ => s

/-- Runs a schedule. -/
def run (prep : http.Request → http.Request) (xs : List Exchange) (s : Sys)
    (sched : List Step) : Sys :=
  sched.foldl (step prep xs) s

/-- The steps of the exchanges `0 .. n-1`, each exchange served and hooked before the
next one starts. -/
def allSteps : Nat → List Step
  | 0 => []
  | n + 1 => allSteps n ++ [.serve n, .hook n]

/-- A schedule is an interleaving of `n` exchanges when it holds each step of each
exchange once and every exchange is served before its hook runs. -/
def IsInterleaving (n : Nat) (sched : List Step) : Prop :=
  sched.Perm (allSteps n) ∧ ∀ i < n, sched.indexOf (.serve i) < sched.indexOf (.hook i)

instance (n : Nat) (sched : List Step) : Decidable (IsInterleaving n sched) := by
  unfold IsInterleaving; infer_instance

/-- Every printed record carries the request body of the exchange whose hook printed it. -/
def Correlated (xs : List Exchange) (s : Sys) : Prop :=
  ∀ e ∈ s.emitted, ∀ x ∈ xs[e.1]?, e.2.Request.Payload = Go.string x.body

instance (xs : List Exchange) (s : Sys) : Decidable (Correlated xs s) := by
  unfold Correlated; infer_instance

/-- The schedule in which the exchanges run one at a time: the `ServeHTTP` of an
exchange is followed by its own `parse_response` before the next exchange starts. -/
def sequential (n : Nat) : List Step := allSteps n

/-- The world after the handler has served the requests one after the other; a panic of
one exchange is recovered by the HTTP server and the next request is served in the world
the panicking exchange left. -/
def serveAll {σ : Type} (ph : ProxyHandler σ) (w : World) (rs : List http.Request) : World :=
  rs.foldl (fun w r => (ph.ServeHTTP w r).1) w

/-- The request bodies of the exchanges are pairwise distinct. -/
def DistinctBodies (xs : List Exchange) : Prop := (xs.map Exchange.body).Nodup

instance (xs : List Exchange) : Decidable (DistinctBodies xs) := by
  unfold DistinctBodies; infer_instance

end Proxy

/-! ## Inputs used in the examples -/

namespace Sample

/-- A body stream over the bytes of `s` that reads and closes without error. -/
def stream (s : String) : io.ReadCloser :=
  { data := s.toList, off := 0, readErr := none, closeErr := none }

/-- A body stream over the bytes of `s` whose reads succeed and whose `Close` fails. -/
def streamCloseFails (s : String) : io.ReadCloser :=
  { data := s.toList, off := 0, readErr := none, closeErr := some "close failed" }

/-- An inbound request to host `client.example` with the given method, path and body. -/
def request (method path body : String) : http.Request :=
  { Method := method.toList
    URL := { url.URL.zero with Path := path.toList }
    Proto := "HTTP/1.1".toList
    Header := [("Content-Type".toList, ["application/json".toList])]
    Body := stream body
    ContentLength := body.length
    Host := "client.example".toList
    RemoteAddr := "10.0.0.1:5000".toList
    RequestURI := path.toList }

/-- An upstream response with the given status and body; its `Request` is overwritten
by the transport. -/
def response (status : Int) (body : String) : http.Response :=
  { StatusCode := status
    Header := [("Content-Type".toList, ["application/json".toList])]
    Body := stream body
    Request := request "" "" "" }

/-- An engine header rewriting that leaves request headers as they are. -/
def keepReq : http.Request → http.Header := fun r => r.Header

/-- An engine header rewriting that leaves response headers as they are. -/
def keepRes : http.Response → http.Header := fun r => r.Header

/-- An upstream that answers every request with `res`. -/
def upstream (res : http.Response) : http.Request → Except GoError http.Response :=
  fun _ => .ok res

/-- The request `POST /items` with body `{"x":1}`. -/
def postItems : http.Request := request "POST" "/items" "\x7b\"x\":1\x7d"

/-- The response `201` with body `{"id":7}`. -/
def created : http.Response := response 201 "\x7b\"id\":7\x7d"

/-- The request `POST /items` whose body stream reads in full and then fails to close. -/
def postCloseFails : http.Request :=
  { postItems with Body := streamCloseFails "\x7b\"x\":1\x7d" }

/-- The response `201` whose body stream reads in full and then fails to close. -/
def createdCloseFails : http.Response :=
  { created with Body := streamCloseFails "\x7b\"id\":7\x7d" }

/-- The records `src/proxy/proxy.go` prints when it is started with `-host origin` and
serves the single request `r`, the upstream answering `res`. -/
def recordsOf (origin : String) (r : http.Request) (res : http.Response) :
    List Proxy.RecordLog :=
  match Proxy.main (upstream res) keepReq keepRes { host := some origin.toList }
      Proxy.World.init with
  | (w, .ok srv) => (Proxy.serve srv w r).1.stdout
  | (_, .error _) => []

/-- Two exchanges with the distinct request bodies `a` and `b`. -/
def twoExchanges : List Proxy.Exchange :=
  [{ request := request "POST" "/first" "a", reply := response 200 "ra" },
   { request := request "POST" "/second" "b", reply := response 200 "rb" }]

/-- Both requests are handled before either response arrives. -/
def overlapping : List Proxy.Step := [.serve 0, .serve 1, .hook 0, .hook 1]

/-- The engine `main` builds for the origin `https://api.internal`, the upstream
answering `201` with body `{"id":7}`. -/
def engine : httputil.ReverseProxy Proxy.World :=
  { Director :=
      httputil.director
        { url.URL.zero with Scheme := "https".toList, Host := "api.internal".toList }
    Transport := upstream created
    ModifyResponse := some Proxy.parse_response
    outHeader := keepReq
    resHeader := keepRes }

end Sample

/-! ## Relating the two programs -/

/-- The engine stopped at the hand-over, for `src/parser/proxy/proxy.go`. -/
def ParserProxy.handoff : ParserProxy.ProxyHandler http.Request :=
  { p := fun w r => (w, .ok r) }

/-- A record of `src/proxy/proxy.go` and one of `src/parser/proxy/proxy.go` agree: every
`Request` field, `Response.Status_code` and `Response.Headers` are equal, and the text
`Response.Body` of the first holds the bytes of the byte-slice `Response.Body` of the
second. -/
def recordsAgree (a : Proxy.RecordLog) (b : ParserProxy.RecordLog) : Prop :=
  a.Request.Payload = b.Request.Payload
  ∧ a.Request.Protocol = b.Request.Protocol
  ∧ a.Request.Path = b.Request.Path
  ∧ a.Request.Method = b.Request.Method
  ∧ a.Request.Headers = b.Request.Headers
  ∧ a.Response.Status_code = b.Response.Status_code
  ∧ a.Response.Headers = b.Response.Headers
  ∧ a.Response.Body = Go.string b.Response.Body

instance (a : Proxy.RecordLog) (b : ParserProxy.RecordLog) : Decidable (recordsAgree a b) := by
  unfold recordsAgree; infer_instance

/-- The worlds of the two programs correspond: equal package-level variables, and printed
records that agree line by line. -/
def worldsAgree (w1 : Proxy.World) (w2 : ParserProxy.World) : Prop :=
  w1.new_host = w2.new_host ∧ w1.remote = w2.remote
  ∧ w1.current_payload = w2.current_payload
  ∧ List.Forall₂ recordsAgree w1.stdout w2.stdout

/-! ## Auxiliary facts -/

/-- Registering a handler on `/` in a new mux does not panic and gives `rootMux`. -/
theorem http.handle_root {H : Type} (h : H) :
    (http.NewServeMux : http.ServeMux H).Handle "/".toList h = .ok (http.rootMux h) := rfl

/-- `path.Clean` of a rooted path is rooted. -/
theorem http.pathClean_rooted (s : GoString) : ∃ t, http.pathClean ('/' :: s) = '/' :: t := by
  simp [http.pathClean]

/-- The canonical form of a request path starts with a slash. -/
theorem http.cleanPath_rooted (p : GoString) : ∃ t, http.cleanPath p = '/' :: t := by
  unfold http.cleanPath
  split
  · exact ⟨[], rfl⟩
  · have hq : ∃ s, (if p.head? ≠ some '/' then '/' :: p else p) = '/' :: s := by
      split
      · exact ⟨p, rfl⟩
      · rename_i h
        cases p with
        | nil => simp at h
        | cons c cs =>
          simp only [List.head?_cons, ne_eq, Option.some.injEq, not_not] at h
          exact ⟨cs, by rw [h]⟩
    obtain ⟨s, hs⟩ := hq
    simp only [hs]
    obtain ⟨t, ht⟩ := http.pathClean_rooted s
    rw [ht]
    split
    · split
      · exact ⟨s, rfl⟩
      · exact ⟨t ++ "/".toList, rfl⟩
    · exact ⟨t, rfl⟩

/-- The mux with the one pattern `/` passes a request to the registered handler when the
request URI is not `*`, the method is not `CONNECT` and the path is in canonical form. -/
theorem http.rootMux_routes {H W σ : Type}
    (serve : H → W → http.Request → W × Except GoError σ) (h : H) (w : W)
    (r : http.Request) (huri : r.RequestURI ≠ "*".toList)
    (hmethod : r.Method ≠ "CONNECT".toList)
    (hclean : http.cleanPath r.URL.Path = r.URL.Path) :
    (http.rootMux h).ServeHTTP serve w r
      = ((serve h w r).1, (serve h w r).2.map http.Routed.handled) := by
  obtain ⟨t, ht⟩ := http.cleanPath_rooted r.URL.Path
  rw [hclean] at ht
  have hsel : (http.rootMux h).Handler r = .registered h := by
    simp only [http.ServeMux.Handler, hmethod, if_false, hclean]
    rw [ht]
    by_cases htn : t = []
    · subst htn
      simp [http.ServeMux.shouldRedirectRLocked, http.rootMux, List.lookup,
        http.ServeMux.handler, http.ServeMux.matchPath]
    · have e1 : (t == []) = false := by
        rw [beq_eq_false_iff_ne]; exact htn
      have e2 : ∀ a : GoString, (a ++ '/' :: t == ['/']) = false := by
        intro a
        rw [beq_eq_false_iff_ne]
        intro hc
        have hl := congrArg List.length hc
        cases a with
        | nil => simp at hc; exact htn hc
        | cons c cs => simp at hl
      have e3 : (t ++ ['/'] == []) = false := by
        rw [beq_eq_false_iff_ne]; simp
      have e4 : ∀ a : GoString, (a ++ '/' :: (t ++ ['/']) == ['/']) = false := by
        intro a
        rw [beq_eq_false_iff_ne]
        intro hc
        have hl := congrArg List.length hc
        simp at hl
        omega
      have e5 : t.isEmpty = false := by
        cases t with
        | nil => exact absurd rfl htn
        | cons c cs => rfl
      simp [http.ServeMux.shouldRedirectRLocked, http.rootMux, List.lookup, e1, e2, e3, e4,
        e5, http.ServeMux.handler, http.ServeMux.matchPath]
  simp only [http.ServeMux.ServeHTTP, huri, if_false, hsel]
  rcases hserve : serve h w r with ⟨w2, res⟩
  cases res <;> rfl

/-- A request whose path is not in canonical form is answered by the mux with a redirect:
for `POST //items` the server started with `-host https://api.internal` redirects to
`/items`, the `ProxyHandler` is not called and nothing is printed. -/
theorem Proxy.unclean_path_redirected :
    (match Proxy.main (Sample.upstream Sample.created) Sample.keepReq Sample.keepRes
        { host := some "https://api.internal".toList } Proxy.World.init with
      | (w, .ok srv) =>
        some ((Proxy.serve srv w (Sample.request "POST" "//items" "\x7b\"x\":1\x7d")).2,
          (Proxy.serve srv w (Sample.request "POST" "//items" "\x7b\"x\":1\x7d")).1.stdout)
      | (_, .error _) => none)
      = some (.ok (.redirected "/items".toList), []) := by
  decide

/-- When the origin parses, `main` sets `new_host` and starts the server on `:8080`; its
handler is the mux with the one pattern `/`, on which the single-host engine for the
parsed URL, hooked to `parse_response`, is registered. -/
theorem Proxy.main_of_parse (net : http.Request → Except GoError http.Response)
    (outHeader : http.Request → http.Header) (resHeader : http.Response → http.Header)
    (flags : Proxy.Flags) (w : Proxy.World) (target : url.URL)
    (hparse : url.Parse (flags.host.getD "https://example.com".toList) = .ok target) :
    Proxy.main net outHeader resHeader flags w =
      ({ w with new_host := flags.host.getD "https://example.com".toList },
        .ok
          { Addr := ":8080".toList
            Handler := http.rootMux (Proxy.installed net outHeader resHeader target)
            ReadTimeout := 10
            WriteTimeout := 10
            MaxHeaderBytes := 2 ^ 20 }) := by
  simp only [Proxy.main, hparse, httputil.NewSingleHostReverseProxy, Proxy.installed,
    http.handle_root]

/-- When the origin parses, `main` of `src/parser/proxy/proxy.go` leaves the world as it
is and starts the server on the port of the `-port` flag; its handler is the mux with the
one pattern `/`, on which the single-host engine for the parsed URL, hooked to
`parse_response`, is registered. -/
theorem ParserProxy.parser_main_of_parse (net : http.Request → Except GoError http.Response)
    (outHeader : http.Request → http.Header) (resHeader : http.Response → http.Header)
    (flags : ParserProxy.Flags) (w : ParserProxy.World) (target : url.URL)
    (hparse : url.Parse (flags.host.getD "https://example.com".toList) = .ok target) :
    ParserProxy.main net outHeader resHeader flags w =
      (w,
        .ok
          { Addr := ":".toList ++ (toString (flags.port.getD 8080)).toList
            Handler := http.rootMux (ParserProxy.installed net outHeader resHeader target)
            ReadTimeout := 10
            WriteTimeout := 10
            MaxHeaderBytes := 2 ^ 20 }) := by
  simp only [ParserProxy.main, hparse, httputil.NewSingleHostReverseProxy,
    ParserProxy.installed, http.handle_root]

/-- One exchange through the installed handler of `src/proxy/proxy.go`, both bodies
reading and closing without error and the upstream answering `res`: the record printed. -/
theorem Proxy.installed_record (outHeader : http.Request → http.Header)
    (resHeader : http.Response → http.Header) (target : url.URL) (w : Proxy.World)
    (r : http.Request) (B : List Byte) (res : http.Response) (R : List Byte)
    (hread : ioutil.ReadAll r.Body = (B, none)) (hclose : r.Body.Close = none)
    (hread2 : ioutil.ReadAll res.Body = (R, none)) (hclose2 : res.Body.Close = none) :
    ∃ rec : Proxy.RecordLog,
      ((Proxy.installed (fun _ => .ok res) outHeader resHeader target).ServeHTTP w r).1.stdout
        = w.stdout ++ [rec]
      ∧ rec.Request.Method = r.Method
      ∧ rec.Request.Path = (httputil.director target r).URL.String
      ∧ rec.Request.Payload = Go.string B
      ∧ rec.Response.Status_code = res.StatusCode
      ∧ rec.Response.Body = Go.string R := by
  by_cases hcl : r.ContentLength = 0 <;> by_cases h101 : res.StatusCode = 101 <;>
    simp [Proxy.installed, Proxy.ProxyHandler.ServeHTTP, hread, hclose,
      httputil.ReverseProxy.ServeHTTP,
      httputil.ReverseProxy.respond, httputil.ReverseProxy.outreq, Proxy.parse_response,
      hread2, hclose2, Proxy.dump_response, json.Marshal, h101, hcl, httputil.director,
      Go.string]

/-- One exchange through the installed handler of `src/parser/proxy/proxy.go`, both
bodies reading and closing without error and the upstream answering `res`: the record
printed. -/
theorem ParserProxy.parser_installed_record (outHeader : http.Request → http.Header)
    (resHeader : http.Response → http.Header) (target : url.URL) (w : ParserProxy.World)
    (r : http.Request) (B : List Byte) (res : http.Response) (R : List Byte)
    (hread : ioutil.ReadAll r.Body = (B, none)) (hclose : r.Body.Close = none)
    (hread2 : ioutil.ReadAll res.Body = (R, none)) (hclose2 : res.Body.Close = none) :
    ∃ rec : ParserProxy.RecordLog,
      ((ParserProxy.installed (fun _ => .ok res) outHeader resHeader target).ServeHTTP
          w r).1.stdout = w.stdout ++ [rec]
      ∧ rec.Request.Method = r.Method
      ∧ rec.Request.Path = (httputil.director target r).URL.String
      ∧ rec.Request.Payload = Go.string B
      ∧ rec.Response.Status_code = res.StatusCode
      ∧ rec.Response.Body = R := by
  by_cases hcl : r.ContentLength = 0 <;> by_cases h101 : res.StatusCode = 101 <;>
    simp [ParserProxy.installed, ParserProxy.ProxyHandler.ServeHTTP, hread, hclose,
      httputil.ReverseProxy.ServeHTTP,
      httputil.ReverseProxy.respond, httputil.ReverseProxy.outreq,
      ParserProxy.parse_response,
      hread2, hclose2, ParserProxy.dump_response, json.Marshal, h101, hcl,
      httputil.director, Go.string]

namespace Proxy

/-- `parse_response` either leaves the world as it was (it panicked before
`dump_response`), or prints one record whose `Request.Payload` is the `current_payload`
it found, and resets `current_payload`. -/
theorem parse_response_world (w : World) (resp : http.Response) :
    (parse_response w resp).1 = w
    ∨ ∃ rec : RecordLog, rec.Request.Payload = Go.string w.current_payload
        ∧ (parse_response w resp).1
            = { w with current_payload := [], stdout := w.stdout ++ [rec] } := by
  simp only [parse_response]
  split
  · exact Or.inl rfl
  · split
    · exact Or.inl rfl
    · exact Or.inr ⟨_, rfl, rfl⟩

/-- A `serve` step either changes nothing (unknown exchange, or `ServeHTTP` panicked), or
stores the request body of its exchange in `current_payload` and adds one pending
request for it. -/
theorem step_serve (prep : http.Request → http.Request) (xs : List Exchange) (s : Sys)
    (i : Nat) :
    step prep xs s (.serve i) = s
    ∨ ∃ x q, xs[i]? = some x
        ∧ step prep xs s (.serve i)
            = { s with world := { s.world with current_payload := x.body }
                       inflight := (i, q) :: s.inflight } := by
  cases hx : xs[i]? with
  | none => exact Or.inl (by simp only [step, hx])
  | some x =>
    cases hr : ioutil.ReadAll x.request.Body with
    | mk b err =>
      cases err with
      | some e => exact Or.inl (by simp only [step, hx, ProxyHandler.ServeHTTP, hr])
      | none =>
        cases hc : x.request.Body.Close with
        | some e => exact Or.inl (by simp only [step, hx, ProxyHandler.ServeHTTP, hr, hc])
        | none =>
          refine Or.inr ⟨x, prep { x.request with
            Body := ioutil.NopCloser (bytes.NewReader b), Host := s.world.remote.Host }, rfl, ?_⟩
          simp only [step, hx, ProxyHandler.ServeHTTP, hr, hc, handoff, Exchange.body]

/-- The records a `hook` step adds: at most one, printed for its exchange, carrying the
`current_payload` found by the step; if one is added, `current_payload` is empty after. -/
theorem step_hook (prep : http.Request → http.Request) (xs : List Exchange) (s : Sys)
    (i : Nat) :
    ∃ l : List (Nat × RecordLog),
      (step prep xs s (.hook i)).emitted = s.emitted ++ l
      ∧ (∀ e ∈ l, e.1 = i ∧ e.2.Request.Payload = Go.string s.world.current_payload)
      ∧ (l ≠ [] → (step prep xs s (.hook i)).world.current_payload = []) := by
  cases hx : xs[i]? with
  | none => exact ⟨[], by simp [step, hx], by simp, by simp⟩
  | some x =>
    cases hl : s.inflight.lookup i with
    | none => exact ⟨[], by simp [step, hx, hl], by simp, by simp⟩
    | some q =>
      rcases parse_response_world s.world { x.reply with Request := q } with h | ⟨rec, hp, h⟩
      · exact ⟨[], by simp [step, hx, hl, h], by simp, by simp⟩
      · exact ⟨[(i, rec)], by simp [step, hx, hl, h], by simp [hp], by simp [step, hx, hl, h]⟩

/-- Printed records are never removed by a step. -/
theorem step_emitted (prep : http.Request → http.Request) (xs : List Exchange) (s : Sys)
    (t : Step) : ∃ l, (step prep xs s t).emitted = s.emitted ++ l := by
  cases t with
  | serve i =>
    rcases step_serve prep xs s i with h | ⟨x, q, _, h⟩
    · exact ⟨[], by rw [h]; simp⟩
    · exact ⟨[], by rw [h]; simp⟩
  | hook i =>
    obtain ⟨l, h, _⟩ := step_hook prep xs s i
    exact ⟨l, h⟩

/-- Printed records are never removed by a run. -/
theorem run_emitted (prep : http.Request → http.Request) (xs : List Exchange)
    (sched : List Step) :
    ∀ s : Sys, ∃ l, (run prep xs s sched).emitted = s.emitted ++ l := by
  induction sched with
  | nil => intro s; exact ⟨[], by simp [run]⟩
  | cons t rest ih =>
    intro s
    obtain ⟨l1, h1⟩ := step_emitted prep xs s t
    obtain ⟨l2, h2⟩ := ih (step prep xs s t)
    refine ⟨l1 ++ l2, ?_⟩
    simp only [run, List.foldl_cons] at h2 ⊢
    rw [h2, h1, List.append_assoc]

/-- Running two schedules one after the other. -/
theorem run_append (prep : http.Request → http.Request) (xs : List Exchange) (s : Sys)
    (a b : List Step) :
    run prep xs s (a ++ b) = run prep xs (run prep xs s a) b := by
  simp only [run, List.foldl_append]

/-- A `serve` step on a request whose body reads (bytes `B`) and closes without error. -/
theorem step_serve_ok (prep : http.Request → http.Request) (xs : List Exchange) (s : Sys)
    (i : Nat) (x : Exchange) (B : List Byte) (hx : xs[i]? = some x)
    (hread : ioutil.ReadAll x.request.Body = (B, none))
    (hclose : x.request.Body.Close = none) :
    step prep xs s (.serve i)
      = { s with
          world := { s.world with current_payload := B }
          inflight :=
            (i, prep { x.request with
              Body := ioutil.NopCloser (bytes.NewReader B)
              Host := s.world.remote.Host }) :: s.inflight } := by
  simp only [step, hx, ProxyHandler.ServeHTTP, hread, hclose, handoff]

/-- A `hook` step on a pending request `q` and a reply whose body reads (bytes `R`) and
closes without error. -/
theorem step_hook_ok (prep : http.Request → http.Request) (xs : List Exchange) (s : Sys)
    (i : Nat) (x : Exchange) (q : http.Request) (R : List Byte) (hx : xs[i]? = some x)
    (hq : s.inflight.lookup i = some q)
    (hread : ioutil.ReadAll x.reply.Body = (R, none))
    (hclose : x.reply.Body.Close = none) :
    step prep xs s (.hook i)
      = { world :=
            { s.world with
              current_payload := []
              stdout := s.world.stdout ++
                [{ Request :=
                    { Payload := Go.string s.world.current_payload
                      Protocol := q.Proto
                      Path := q.URL.String
                      Method := q.Method
                      Headers := q.Header }
                   Response :=
                    { Status_code := x.reply.StatusCode
                      Body := Go.string R
                      Headers := x.reply.Header } }] }
          inflight := s.inflight.filter fun e => e.1 ≠ i
          emitted := s.emitted ++
            [(i, { Request :=
                    { Payload := Go.string s.world.current_payload
                      Protocol := q.Proto
                      Path := q.URL.String
                      Method := q.Method
                      Headers := q.Header }
                   Response :=
                    { Status_code := x.reply.StatusCode
                      Body := Go.string R
                      Headers := x.reply.Header } })] } := by
  simp [step, hx, hq, parse_response, hread, hclose, dump_response, json.Marshal]

/-- An exchange whose hook runs right after its own `ServeHTTP`, both streams reading
and closing without error: exactly one record is printed for it, with the request body
of the exchange as `Request.Payload`, and `current_payload` is empty after. -/
theorem step_adjacent (prep : http.Request → http.Request) (xs : List Exchange) (s : Sys)
    (i : Nat) (x : Exchange) (B R : List Byte) (hx : xs[i]? = some x)
    (hread : ioutil.ReadAll x.request.Body = (B, none))
    (hclose : x.request.Body.Close = none)
    (hread2 : ioutil.ReadAll x.reply.Body = (R, none))
    (hclose2 : x.reply.Body.Close = none) :
    ∃ rec : RecordLog, rec.Request.Payload = Go.string B
      ∧ (run prep xs s [.serve i, .hook i]).emitted = s.emitted ++ [(i, rec)]
      ∧ (run prep xs s [.serve i, .hook i]).world.current_payload = [] := by
  have h1 := step_serve_ok prep xs s i x B hx hread hclose
  have h2 := step_hook_ok prep xs (step prep xs s (.serve i)) i x
    (prep { x.request with
      Body := ioutil.NopCloser (bytes.NewReader B), Host := s.world.remote.Host }) R hx
    (by rw [h1]; simp [List.lookup]) hread2 hclose2
  simp only [run, List.foldl_cons, List.foldl_nil]
  rw [h2, h1]
  refine ⟨_, ?_, rfl, rfl⟩
  rfl

/-- An exchange served and hooked with no request pending before: what is printed
carries the request body of that exchange, and no request is pending after. -/
theorem step_pair (prep : http.Request → http.Request) (xs : List Exchange) (s : Sys)
    (i : Nat) (hinf : s.inflight = []) :
    ∃ l : List (Nat × RecordLog),
      (run prep xs s [.serve i, .hook i]).emitted = s.emitted ++ l
      ∧ (run prep xs s [.serve i, .hook i]).inflight = []
      ∧ (∀ e ∈ l, e.1 = i ∧ ∀ x ∈ xs[i]?, e.2.Request.Payload = Go.string x.body)
      ∧ (l ≠ [] → (run prep xs s [.serve i, .hook i]).world.current_payload = []) := by
  simp only [run, List.foldl_cons, List.foldl_nil]
  rcases step_serve prep xs s i with h | ⟨x, q, hx, h⟩
  · have hs : step prep xs s (.hook i) = s := by
      cases hx : xs[i]? <;> simp [step, hx, hinf]
    rw [h, hs]
    exact ⟨[], by simp, hinf, by simp, by simp⟩
  · rw [h]
    rcases parse_response_world { s.world with current_payload := x.body }
        { x.reply with Request := q } with hp | ⟨rec, hpay, hp⟩
    · exact ⟨[], by simp [step, hx, hinf, hp], by simp [step, hx, hinf], by simp, by simp⟩
    · refine ⟨[(i, rec)], by simp [step, hx, hinf, hp], by simp [step, hx, hinf], ?_,
        by simp [step, hx, hinf, hp]⟩
      intro e he
      simp only [List.mem_singleton] at he
      subst he
      refine ⟨rfl, ?_⟩
      intro y hy
      rw [hx] at hy
      simp only [Option.mem_def, Option.some.injEq] at hy
      subst hy
      exact hpay

/-- What `parse_response` prints: at most one record, carrying the `current_payload` it
found; when it prints, `current_payload` is empty after. -/
theorem parse_response_out (w : World) (resp : http.Response) :
    ∃ l : List RecordLog,
      (parse_response w resp).1.stdout = w.stdout ++ l
      ∧ l.length ≤ 1
      ∧ (∀ rec ∈ l, rec.Request.Payload = Go.string w.current_payload)
      ∧ (l ≠ [] → (parse_response w resp).1.current_payload = []) := by
  rcases parse_response_world w resp with h | ⟨rec, hpay, h⟩
  · exact ⟨[], by rw [h]; simp, by simp, by simp, by simp⟩
  · exact ⟨[rec], by rw [h], by simp, by simpa using hpay, by rw [h]; simp⟩

/-- The world the engine leaves after an upstream response is the world its hook leaves. -/
theorem respond_world (p : httputil.ReverseProxy World)
    (hook : World → http.Response → World × Except GoError httputil.HookResult)
    (hp : p.ModifyResponse = some hook) (w : World) (res : http.Response) :
    (p.respond w res).1
      = (hook w (if res.StatusCode = 101 then res
          else { res with Header := p.resHeader res })).1 := by
  simp only [httputil.ReverseProxy.respond, hp]
  split
  · rename_i h; rw [h]
  · rename_i h; rw [h]
  · rename_i h
    rw [h]
    split <;> rfl

/-- One whole exchange through the handler `main` installs, from any world: at most one
record is printed, it carries the request body of this exchange, and when it is printed
`current_payload` is empty after. -/
theorem serve_once (net : http.Request → Except GoError http.Response)
    (outHeader : http.Request → http.Header) (resHeader : http.Response → http.Header)
    (target : url.URL) (w : World) (r : http.Request) :
    ∃ l : List RecordLog,
      ((installed net outHeader resHeader target).ServeHTTP w r).1.stdout = w.stdout ++ l
      ∧ l.length ≤ 1
      ∧ (∀ rec ∈ l, rec.Request.Payload = Go.string (ioutil.ReadAll r.Body).1)
      ∧ (l ≠ [] →
          ((installed net outHeader resHeader target).ServeHTTP w r).1.current_payload = [])
      := by
  cases hr : ioutil.ReadAll r.Body with
  | mk b err =>
    cases err with
    | some e => exact ⟨[], by simp [ProxyHandler.ServeHTTP, hr], by simp, by simp, by simp⟩
    | none =>
      cases hc : r.Body.Close with
      | some e =>
        exact ⟨[], by simp [ProxyHandler.ServeHTTP, hr, hc], by simp, by simp, by simp⟩
      | none =>
        simp only [ProxyHandler.ServeHTTP, hr, hc, installed,
          httputil.ReverseProxy.ServeHTTP]
        split
        · exact ⟨[], by simp, by simp, by simp, by simp⟩
        · rw [respond_world _ parse_response rfl]
          exact parse_response_out { w with current_payload := b } _

/-- The schedule steps compose to the engine: for a request whose body reads and closes
without error and an upstream that answers `res`, the world left by the handler `main`
installs is the world left by the `serve` step followed by the `hook` step, the reply of
the exchange being `res` as the engine passes it to its hook. -/
theorem steps_match_engine (net : http.Request → Except GoError http.Response)
    (outHeader : http.Request → http.Header) (resHeader : http.Response → http.Header)
    (target : url.URL) (w : World) (r : http.Request) (B : List Byte) (res : http.Response)
    (p : httputil.ReverseProxy World)
    (hp : p = { Director := httputil.director target, Transport := net,
                ModifyResponse := some parse_response, outHeader := outHeader,
                resHeader := resHeader })
    (hread : ioutil.ReadAll r.Body = (B, none)) (hclose : r.Body.Close = none)
    (hnet : net (p.outreq { r with
      Body := ioutil.NopCloser (bytes.NewReader B), Host := w.remote.Host }) = .ok res) :
    ((installed net outHeader resHeader target).ServeHTTP w r).1
      = (run p.outreq
          [{ request := r
             reply :=
              if res.StatusCode = 101 then res
              else { res with
                Header := resHeader { res with
                  Request := p.outreq { r with
                    Body := ioutil.NopCloser (bytes.NewReader B)
                    Host := w.remote.Host } } } }]
          (Sys.init w) [.serve 0, .hook 0]).world := by
  subst hp
  simp only [ProxyHandler.ServeHTTP, hread, hclose, installed,
    httputil.ReverseProxy.ServeHTTP, hnet]
  rw [respond_world _ parse_response rfl]
  simp only [run, List.foldl_cons, List.foldl_nil, step, Sys.init, List.getElem?_cons_zero,
    ProxyHandler.ServeHTTP, hread, hclose, handoff, List.lookup, beq_self_eq_true]
  split <;> rfl

/-- Requests served one after the other by the handler `main` installs: what is printed
splits into one group per request, of at most one record, carrying the body of that
request. -/
theorem serveAll_out (net : http.Request → Except GoError http.Response)
    (outHeader : http.Request → http.Header) (resHeader : http.Response → http.Header)
    (target : url.URL) (rs : List http.Request) :
    ∀ w : World, ∃ ls : List (List RecordLog),
      (serveAll (installed net outHeader resHeader target) w rs).stdout
        = w.stdout ++ ls.flatten
      ∧ List.Forall₂
          (fun r l => l.length ≤ 1
            ∧ ∀ rec ∈ l, rec.Request.Payload = Go.string (ioutil.ReadAll r.Body).1)
          rs ls := by
  induction rs with
  | nil => intro w; exact ⟨[], by simp [serveAll], List.Forall₂.nil⟩
  | cons r rest ih =>
    intro w
    obtain ⟨l, hl, hlen, hpay, _⟩ := serve_once net outHeader resHeader target w r
    obtain ⟨ls, hls, hall⟩ :=
      ih ((installed net outHeader resHeader target).ServeHTTP w r).1
    refine ⟨l :: ls, ?_, List.Forall₂.cons ⟨hlen, hpay⟩ hall⟩
    simp only [serveAll, List.foldl_cons] at hls ⊢
    rw [hls, hl, List.flatten_cons, List.append_assoc]

/-- The state after the first `n` exchanges have run one at a time: no request is
pending, every printed record belongs to one of these exchanges and carries its
request body, and every exchange whose streams read and close without error has a
record. -/
theorem sequential_invariant (prep : http.Request → http.Request) (xs : List Exchange)
    (w0 : World) (n : Nat) :
    (run prep xs (Sys.init w0) (sequential n)).inflight = []
    ∧ (∀ e ∈ (run prep xs (Sys.init w0) (sequential n)).emitted,
        e.1 < n ∧ ∀ x ∈ xs[e.1]?, e.2.Request.Payload = Go.string x.body)
    ∧ (∀ i < n, ∀ x, xs[i]? = some x →
        (ioutil.ReadAll x.request.Body).2 = none → x.request.Body.Close = none →
        (ioutil.ReadAll x.reply.Body).2 = none → x.reply.Body.Close = none →
        ∃ rec, (i, rec) ∈ (run prep xs (Sys.init w0) (sequential n)).emitted) := by
  induction n with
  | zero =>
    refine ⟨rfl, ?_, ?_⟩
    · intro e he
      simp [run, sequential, allSteps, Sys.init] at he
    · intro i hi
      exact absurd hi (Nat.not_lt_zero i)
  | succ n ih =>
    obtain ⟨hinf, hem, hex⟩ := ih
    have hrun : run prep xs (Sys.init w0) (sequential (n + 1))
        = run prep xs (run prep xs (Sys.init w0) (sequential n)) [.serve n, .hook n] := by
      simp only [sequential, allSteps, run_append]
    obtain ⟨l, hl, hinf2, hnew, _⟩ :=
      step_pair prep xs (run prep xs (Sys.init w0) (sequential n)) n hinf
    rw [hrun]
    refine ⟨hinf2, ?_, ?_⟩
    · intro e he
      rw [hl, List.mem_append] at he
      rcases he with he | he
      · exact ⟨Nat.lt_succ_of_lt (hem e he).1, (hem e he).2⟩
      · obtain ⟨h1, h2⟩ := hnew e he
        refine ⟨by omega, ?_⟩
        rw [h1]
        exact h2
    · intro i hi x hx hr hc hr2 hc2
      rcases Nat.lt_succ_iff_lt_or_eq.mp hi with hlt | heq
      · obtain ⟨rec, hrec⟩ := hex i hlt x hx hr hc hr2 hc2
        exact ⟨rec, by rw [hl]; exact List.mem_append_left _ hrec⟩
      · subst heq
        obtain ⟨rec, _, hrec, _⟩ :=
          step_adjacent prep xs (run prep xs (Sys.init w0) (sequential i)) i x
            (ioutil.ReadAll x.request.Body).1 (ioutil.ReadAll x.reply.Body).1 hx
            (Prod.ext rfl hr) hc (Prod.ext rfl hr2) hc2
        exact ⟨rec, by rw [hrec]; simp⟩

end Proxy

/-! ## The claims -/

namespace Proxy

/-- C1 fails on the code: with two exchanges of distinct request bodies `a` and `b`, in
the interleaving where both requests are handled before either response arrives, the
record printed for the first exchange carries `b`, the body of the second, and the
record printed for the second carries the empty payload. -/
theorem C1_interleaving_counterexample :
    2 ≤ Sample.twoExchanges.length
    ∧ DistinctBodies Sample.twoExchanges
    ∧ IsInterleaving 2 Sample.overlapping
    ∧ ¬ Correlated Sample.twoExchanges
        (run Sample.engine.outreq Sample.twoExchanges (Sys.init World.init)
          Sample.overlapping)
    ∧ (run Sample.engine.outreq Sample.twoExchanges (Sys.init World.init)
          Sample.overlapping).emitted.map (fun e => (e.1, e.2.Request.Payload))
        = [(0, "b".toList), (1, [])] := by
  decide

/-- C1 as amended: in every schedule of the steps of any exchanges (so in every
interleaving), a record printed by a response-hook step carries the `current_payload`
the step finds; and when the hook of an exchange runs directly after that exchange's own
request-handling step, both of its streams reading and closing without error, the step
prints exactly one record, whose `Request.Payload` is the request body of that exchange,
and the record stays among the printed records whatever runs afterwards. -/
theorem C1_adjacent_hook_correlated (prep : http.Request → http.Request)
    (xs : List Exchange) (w0 : World) (pre post : List Step) (i : Nat) (x : Exchange)
    (B R : List Byte) (hx : xs[i]? = some x)
    (hread : ioutil.ReadAll x.request.Body = (B, none))
    (hclose : x.request.Body.Close = none)
    (hread2 : ioutil.ReadAll x.reply.Body = (R, none))
    (hclose2 : x.reply.Body.Close = none) :
    (∃ rec : RecordLog, rec.Request.Payload = Go.string B
      ∧ (run prep xs (Sys.init w0) (pre ++ [.serve i, .hook i])).emitted
          = (run prep xs (Sys.init w0) pre).emitted ++ [(i, rec)]
      ∧ (i, rec) ∈ (run prep xs (Sys.init w0) (pre ++ [.serve i, .hook i] ++ post)).emitted)
    ∧ (∀ (s : Sys) (j : Nat), ∃ l : List (Nat × RecordLog),
        (step prep xs s (.hook j)).emitted = s.emitted ++ l
        ∧ ∀ e ∈ l, e.1 = j ∧ e.2.Request.Payload = Go.string s.world.current_payload) := by
  constructor
  · obtain ⟨rec, hpay, hem, _⟩ :=
      step_adjacent prep xs (run prep xs (Sys.init w0) pre) i x B R hx hread hclose hread2
        hclose2
    refine ⟨rec, hpay, by rw [run_append]; exact hem, ?_⟩
    obtain ⟨l, hl⟩ :=
      run_emitted prep xs post (run prep xs (Sys.init w0) (pre ++ [.serve i, .hook i]))
    rw [run_append prep xs (Sys.init w0) (pre ++ [Step.serve i, Step.hook i]) post, hl,
      run_append, hem]
    simp
  · intro s j
    obtain ⟨l, h1, h2, _⟩ := step_hook prep xs s j
    exact ⟨l, h1, h2⟩

/-- C1 as amended, at two exchanges with bodies `a` and `b` in the interleaving
`serve 1, serve 0, hook 0, hook 1`: the record of exchange 0, whose hook follows its own
request handling, carries `a`. -/
theorem C1_adjacent_hook_correlated_witness :
    ∃ rec : RecordLog, rec.Request.Payload = "a".toList
      ∧ (0, rec) ∈ (run Sample.engine.outreq Sample.twoExchanges (Sys.init World.init)
          [.serve 1, .serve 0, .hook 0, .hook 1]).emitted := by
  obtain ⟨⟨rec, hpay, _, hmem⟩, _⟩ :=
    C1_adjacent_hook_correlated Sample.engine.outreq Sample.twoExchanges World.init
      [.serve 1] [.hook 1] 0 (Sample.twoExchanges.get ⟨0, by decide⟩) "a".toList "ra".toList
      rfl rfl rfl rfl rfl
  exact ⟨rec, hpay, hmem⟩

end Proxy

/-- C2, the code at the failing input: started with `-host https://api.internal`, whose
parsed host is `api.internal`, `main` leaves the package-level `remote` at its zero
value (the parsed URL is bound to a local variable of the same name), so `ServeHTTP`
hands the request that arrived with Host `client.example` to the engine with an empty
`Host`.  The engine's outbound URL does carry the host `api.internal`.  Both programs
behave so, for every origin. -/
theorem C2_forwarded_host_is_empty (net : http.Request → Except GoError http.Response)
    (outHeader : http.Request → http.Header) (resHeader : http.Response → http.Header) :
    (url.Parse "https://api.internal".toList).map (fun u => u.Host)
        = .ok "api.internal".toList
    ∧ Sample.postItems.Host = "client.example".toList
    ∧ (Proxy.handoff.ServeHTTP
          (Proxy.main net outHeader resHeader { host := some "https://api.internal".toList }
            Proxy.World.init).1 Sample.postItems).2.map (fun r => r.Host) = .ok []
    ∧ (ParserProxy.handoff.ServeHTTP
          (ParserProxy.main net outHeader resHeader
            { host := some "https://api.internal".toList, port := none }
            ParserProxy.World.init).1 Sample.postItems).2.map (fun r => r.Host) = .ok []
    ∧ (∀ flags w, (Proxy.main net outHeader resHeader flags w).1.remote = w.remote)
    ∧ (∀ flags w, (ParserProxy.main net outHeader resHeader flags w).1.remote = w.remote)
    ∧ (∀ r : http.Request,
        (httputil.director
          { url.URL.zero with Scheme := "https".toList, Host := "api.internal".toList }
          r).URL.Host = "api.internal".toList) := by
  refine ⟨by decide, rfl, rfl, rfl, ?_, ?_, fun _ => rfl⟩
  · intro flags w
    simp only [Proxy.main]
    split <;> rfl
  · intro flags w
    simp only [ParserProxy.main]
    split <;> rfl

namespace Proxy

/-- C3: when the request body reads (bytes `B`) and closes without error, `ServeHTTP`
hands the engine a request whose body is a new stream over `B` at offset 0 that closes
without error and whose full read yields exactly `B`. -/
theorem C3_forwarded_body_is_fresh_copy {σ : Type} (ph : ProxyHandler σ) (w : World)
    (r : http.Request) (B : List Byte)
    (hread : ioutil.ReadAll r.Body = (B, none)) (hclose : r.Body.Close = none) :
    ph.ServeHTTP w r =
        ph.p { w with current_payload := B }
          { r with Body := ioutil.NopCloser (bytes.NewReader B), Host := w.remote.Host }
      ∧ (ioutil.NopCloser (bytes.NewReader B)).off = 0
      ∧ (ioutil.NopCloser (bytes.NewReader B)).data = B
      ∧ ioutil.ReadAll (ioutil.NopCloser (bytes.NewReader B)) = (B, none)
      ∧ (ioutil.NopCloser (bytes.NewReader B)).Close = none := by
  refine ⟨?_, rfl, rfl, rfl, rfl⟩
  simp only [ProxyHandler.ServeHTTP, hread, hclose]

/-- C3 at `POST /items` with body `{"x":1}`: the body of the request handed over reads
as `{"x":1}`. -/
theorem C3_forwarded_body_is_fresh_copy_witness :
    (handoff.ServeHTTP World.init Sample.postItems).2.map (fun r => ioutil.ReadAll r.Body)
      = .ok ("\x7b\"x\":1\x7d".toList, none) := by
  rw [(C3_forwarded_body_is_fresh_copy handoff World.init Sample.postItems
    "\x7b\"x\":1\x7d".toList rfl rfl).1]
  rfl

end Proxy

/-- C4: when the response body reads (bytes `R`) and closes without error,
`parse_response` (in both programs) returns `nil`, leaves on the response a stream whose
full read yields exactly `R`, passes these same bytes `R` to `dump_response`, which does
not panic, and leaves status code, headers and the attached request unchanged. -/
theorem C4_response_body_restored (resp : http.Response) (R : List Byte)
    (hread : ioutil.ReadAll resp.Body = (R, none)) (hclose : resp.Body.Close = none) :
    (∀ w : Proxy.World,
      Proxy.parse_response w resp =
        ((Proxy.dump_response w
            { resp with Body := ioutil.NopCloser (bytes.NewReader R) } R).1,
          .ok ({ resp with Body := ioutil.NopCloser (bytes.NewReader R) }, none))
      ∧ (Proxy.dump_response w
            { resp with Body := ioutil.NopCloser (bytes.NewReader R) } R).2 = .ok ())
    ∧ (∀ w : ParserProxy.World,
      ParserProxy.parse_response w resp =
        ((ParserProxy.dump_response w
            { resp with Body := ioutil.NopCloser (bytes.NewReader R) } R).1,
          .ok ({ resp with Body := ioutil.NopCloser (bytes.NewReader R) }, none))
      ∧ (ParserProxy.dump_response w
            { resp with Body := ioutil.NopCloser (bytes.NewReader R) } R).2 = .ok ())
    ∧ ioutil.ReadAll ({ resp with Body := ioutil.NopCloser (bytes.NewReader R) }
        : http.Response).Body = (R, none)
    ∧ ({ resp with Body := ioutil.NopCloser (bytes.NewReader R) } : http.Response).StatusCode
        = resp.StatusCode
    ∧ ({ resp with Body := ioutil.NopCloser (bytes.NewReader R) } : http.Response).Header
        = resp.Header
    ∧ ({ resp with Body := ioutil.NopCloser (bytes.NewReader R) } : http.Response).Request
        = resp.Request := by
  refine ⟨fun w => ⟨?_, rfl⟩, fun w => ⟨?_, rfl⟩, rfl, rfl, rfl, rfl⟩
  · simp only [Proxy.parse_response, hread, hclose, Proxy.dump_response, json.Marshal]
  · simp only [ParserProxy.parse_response, hread, hclose, ParserProxy.dump_response,
      json.Marshal]

/-- C4 at the response `201 {"id":7}`: `parse_response` returns `nil` and the response
it leaves still reads as `{"id":7}` with status 201. -/
theorem C4_response_body_restored_witness :
    (Proxy.parse_response Proxy.World.init Sample.created).2.map
        (fun h => (h.1.StatusCode, ioutil.ReadAll h.1.Body, h.2))
      = .ok (201, ("\x7b\"id\":7\x7d".toList, none), none) := by
  rw [((C4_response_body_restored Sample.created "\x7b\"id\":7\x7d".toList rfl rfl).1
    Proxy.World.init).1]
  rfl

/-- C5 fails on the code: started with `-host https://api.internal`, for `POST /items`
with body `{"x":1}` answered by `201 {"id":7}` the program prints one record whose
`Request.Path` is `https://api.internal/items`, the string of the outbound URL, and not
the inbound path `/items`. -/
theorem C5_record_path_counterexample :
    (Sample.recordsOf "https://api.internal" Sample.postItems Sample.created).map
        (fun rec => rec.Request.Path) = ["https://api.internal/items".toList]
    ∧ Sample.postItems.URL.Path = "/items".toList
    ∧ (Sample.recordsOf "https://api.internal" Sample.postItems Sample.created).map
        (fun rec => rec.Request.Path) ≠ [Sample.postItems.URL.Path] := by
  decide

/-- C5 as amended: for either program started with an origin that parses to `target`,
`main` registers one handler, on the pattern `/` of the server's mux, and for every
exchange run through that handler's `ServeHTTP`, the engine's rewrite to the origin and
`parse_response`/`dump_response`, whose request body (bytes `B`) and upstream response
body (bytes `R`) read and close without error, exactly one record is printed, with
`Request.Method` the inbound method, `Request.Path` the string of the outbound URL (the
inbound URL with scheme and host of `target`, the joined path and the merged query),
`Request.Payload = B`, `Response.Status_code` the upstream status and
`Response.Body = R`.  The server runs the exchange through that handler whenever the
request URI is not `*`, the method is not `CONNECT` and the path is in canonical form;
other requests may be answered by the mux itself. -/
theorem C5_record_of_single_exchange (outHeader : http.Request → http.Header)
    (resHeader : http.Response → http.Header) (origin : GoString) (target : url.URL)
    (r : http.Request) (B : List Byte) (res : http.Response) (R : List Byte)
    (hparse : url.Parse origin = .ok target)
    (hread : ioutil.ReadAll r.Body = (B, none)) (hclose : r.Body.Close = none)
    (hread2 : ioutil.ReadAll res.Body = (R, none)) (hclose2 : res.Body.Close = none) :
    (∀ w0 : Proxy.World,
      ∃ srv : http.Server (http.ServeMux (Proxy.ProxyHandler httputil.Served)),
        (Proxy.main (fun _ => .ok res) outHeader resHeader { host := some origin } w0).2
          = .ok srv
        ∧ srv.Handler
            = http.rootMux (Proxy.installed (fun _ => .ok res) outHeader resHeader target)
        ∧ (∀ w : Proxy.World, ∃ rec : Proxy.RecordLog,
            ((Proxy.installed (fun _ => .ok res) outHeader resHeader target).ServeHTTP
                w r).1.stdout = w.stdout ++ [rec]
            ∧ rec.Request.Method = r.Method
            ∧ rec.Request.Path = (httputil.director target r).URL.String
            ∧ rec.Request.Payload = Go.string B
            ∧ rec.Response.Status_code = res.StatusCode
            ∧ rec.Response.Body = Go.string R)
        ∧ (∀ w : Proxy.World, r.RequestURI ≠ "*".toList → r.Method ≠ "CONNECT".toList →
            http.cleanPath r.URL.Path = r.URL.Path →
            (Proxy.serve srv w r).1
              = ((Proxy.installed (fun _ => .ok res) outHeader resHeader target).ServeHTTP
                  w r).1))
    ∧ (∀ (w0 : ParserProxy.World) (port : Option Int),
      ∃ srv : http.Server (http.ServeMux (ParserProxy.ProxyHandler httputil.Served)),
        (ParserProxy.main (fun _ => .ok res) outHeader resHeader
          { host := some origin, port := port } w0).2 = .ok srv
        ∧ srv.Handler
            = http.rootMux
                (ParserProxy.installed (fun _ => .ok res) outHeader resHeader target)
        ∧ (∀ w : ParserProxy.World, ∃ rec : ParserProxy.RecordLog,
            ((ParserProxy.installed (fun _ => .ok res) outHeader resHeader
                target).ServeHTTP w r).1.stdout = w.stdout ++ [rec]
            ∧ rec.Request.Method = r.Method
            ∧ rec.Request.Path = (httputil.director target r).URL.String
            ∧ rec.Request.Payload = Go.string B
            ∧ rec.Response.Status_code = res.StatusCode
            ∧ rec.Response.Body = R)
        ∧ (∀ w : ParserProxy.World, r.RequestURI ≠ "*".toList →
            r.Method ≠ "CONNECT".toList → http.cleanPath r.URL.Path = r.URL.Path →
            (ParserProxy.serve srv w r).1
              = ((ParserProxy.installed (fun _ => .ok res) outHeader resHeader
                  target).ServeHTTP w r).1)) := by
  constructor
  · intro w0
    refine ⟨_, congrArg Prod.snd
      (Proxy.main_of_parse (fun _ => .ok res) outHeader resHeader { host := some origin } w0
        target hparse), rfl,
      fun w => Proxy.installed_record outHeader resHeader target w r B res R hread hclose
        hread2 hclose2, ?_⟩
    intro w huri hmethod hclean
    simp only [Proxy.serve]
    rw [http.rootMux_routes Proxy.ProxyHandler.ServeHTTP _ w r huri hmethod hclean]
  · intro w0 port
    refine ⟨_, congrArg Prod.snd
      (ParserProxy.parser_main_of_parse (fun _ => .ok res) outHeader resHeader
        { host := some origin, port := port } w0 target hparse), rfl,
      fun w => ParserProxy.parser_installed_record outHeader resHeader target w r B res R
        hread hclose hread2 hclose2, ?_⟩
    intro w huri hmethod hclean
    simp only [ParserProxy.serve]
    rw [http.rootMux_routes ParserProxy.ProxyHandler.ServeHTTP _ w r huri hmethod hclean]

/-- C5 as amended, at `POST /items` with body `{"x":1}` answered by `201 {"id":7}` under
the origin `https://api.internal`: the server passes the request to the registered
handler and the record printed is Method `POST`, Path `https://api.internal/items`,
Payload `{"x":1}`, Status_code 201, Body `{"id":7}`. -/
theorem C5_record_of_single_exchange_witness :
    ∃ srv : http.Server (http.ServeMux (Proxy.ProxyHandler httputil.Served)),
      (Proxy.main (fun _ => .ok Sample.created) Sample.keepReq Sample.keepRes
        { host := some "https://api.internal".toList } Proxy.World.init).2 = .ok srv
      ∧ ∃ rec : Proxy.RecordLog,
          (Proxy.serve srv Proxy.World.init Sample.postItems).1.stdout = [rec]
          ∧ rec.Request.Method = "POST".toList
          ∧ rec.Request.Path = "https://api.internal/items".toList
          ∧ rec.Request.Payload = "\x7b\"x\":1\x7d".toList
          ∧ rec.Response.Status_code = 201
          ∧ rec.Response.Body = "\x7b\"id\":7\x7d".toList := by
  obtain ⟨srv, hsrv, _, hrec, hroute⟩ :=
    (C5_record_of_single_exchange Sample.keepReq Sample.keepRes "https://api.internal".toList
      { url.URL.zero with Scheme := "https".toList, Host := "api.internal".toList }
      Sample.postItems "\x7b\"x\":1\x7d".toList Sample.created
      "\x7b\"id\":7\x7d".toList (by decide) rfl rfl rfl rfl).1 Proxy.World.init
  obtain ⟨rec, hout, hm, hp, hpay, hst, hb⟩ := hrec Proxy.World.init
  refine ⟨srv, hsrv, rec, ?_, hm, hp.trans (by decide), hpay, hst, hb⟩
  rw [hroute Proxy.World.init (by decide) (by decide) (by decide)]
  exact hout

/-- C6 fails on the code: for the request `POST /items` whose body reads in full and
whose `Close` returns an error, `ServeHTTP` panics with that error before the engine is
called and leaves the world as it was; for the response `201` of the same kind,
`parse_response` panics and prints no record. -/
theorem C6_close_failure_counterexample :
    ioutil.ReadAll Sample.postCloseFails.Body = ("\x7b\"x\":1\x7d".toList, none)
    ∧ Sample.postCloseFails.Body.Close = some "close failed"
    ∧ Proxy.handoff.ServeHTTP Proxy.World.init Sample.postCloseFails
        = (Proxy.World.init, .error "close failed")
    ∧ ioutil.ReadAll Sample.createdCloseFails.Body = ("\x7b\"id\":7\x7d".toList, none)
    ∧ Sample.createdCloseFails.Body.Close = some "close failed"
    ∧ Proxy.parse_response Proxy.World.init Sample.createdCloseFails
        = (Proxy.World.init, .error "close failed") := by
  decide

/-- C6 as amended: when a body stream reads in full and its `Close` returns the error
`e`, the operation is aborted by a panic with `e`.  `ServeHTTP` does not call the engine
and leaves the world (so `current_payload`) unchanged; `parse_response` prints no record,
does not reset `current_payload`, and does not return.  Both programs behave so. -/
theorem C6_close_failure_aborts (B : List Byte) (e : GoError) :
    (∀ {σ : Type} (ph : Proxy.ProxyHandler σ) (w : Proxy.World) (r : http.Request),
        ioutil.ReadAll r.Body = (B, none) → r.Body.Close = some e →
        ph.ServeHTTP w r = (w, .error e))
    ∧ (∀ (w : Proxy.World) (resp : http.Response),
        ioutil.ReadAll resp.Body = (B, none) → resp.Body.Close = some e →
        Proxy.parse_response w resp = (w, .error e))
    ∧ (∀ {σ : Type} (ph : ParserProxy.ProxyHandler σ) (w : ParserProxy.World)
        (r : http.Request),
        ioutil.ReadAll r.Body = (B, none) → r.Body.Close = some e →
        ph.ServeHTTP w r = (w, .error e))
    ∧ (∀ (w : ParserProxy.World) (resp : http.Response),
        ioutil.ReadAll resp.Body = (B, none) → resp.Body.Close = some e →
        ParserProxy.parse_response w resp = (w, .error e)) := by
  refine ⟨?_, ?_, ?_, ?_⟩
  · intro σ ph w r hread hclose
    simp only [Proxy.ProxyHandler.ServeHTTP, hread, hclose]
  · intro w resp hread hclose
    simp only [Proxy.parse_response, hread, hclose]
  · intro σ ph w r hread hclose
    simp only [ParserProxy.ProxyHandler.ServeHTTP, hread, hclose]
  · intro w resp hread hclose
    simp only [ParserProxy.parse_response, hread, hclose]

/-- C6 as amended, at the request `POST /items` with a failing `Close`: the exchange ends
in a panic before the hand-over and the world is unchanged. -/
theorem C6_close_failure_aborts_witness :
    Proxy.handoff.ServeHTTP Proxy.World.init Sample.postCloseFails
      = (Proxy.World.init, .error "close failed") :=
  (C6_close_failure_aborts "\x7b\"x\":1\x7d".toList "close failed").1 Proxy.handoff
    Proxy.World.init Sample.postCloseFails rfl rfl

/-- C7 fails on the code: `url.Parse` accepts the empty string (all fields empty) and
`example.com` (taken as a path, scheme and host empty), and with either origin `main`
does not panic and goes on to start the server. -/
theorem C7_malformed_origin_counterexample :
    url.Parse [] = .ok url.URL.zero
    ∧ url.Parse "example.com".toList = .ok { url.URL.zero with Path := "example.com".toList }
    ∧ Go.succeeded (Proxy.main (Sample.upstream Sample.created) Sample.keepReq Sample.keepRes
        { host := some [] } Proxy.World.init).2 = true
    ∧ Go.succeeded (Proxy.main (Sample.upstream Sample.created) Sample.keepReq Sample.keepRes
        { host := some "example.com".toList } Proxy.World.init).2 = true := by
  refine ⟨by decide, by decide, rfl, rfl⟩

/-- C7 as amended: in both programs `main` panics, and starts no server, exactly when
`url.Parse` rejects the origin string; otherwise the server is started.  `url.Parse`
rejects, for instance, `:80` (missing protocol scheme), `http://[::1` (missing `]`) and a
string with a control byte; it accepts the empty string and `example.com` with empty
scheme and host; and for `https://example.com` it yields scheme `https` and host
`example.com`. -/
theorem C7_origin_resolution (net : http.Request → Except GoError http.Response)
    (outHeader : http.Request → http.Header) (resHeader : http.Response → http.Header) :
    (∀ (flags : Proxy.Flags) (w : Proxy.World),
        Go.succeeded (Proxy.main net outHeader resHeader flags w).2
          = Go.succeeded (url.Parse (flags.host.getD "https://example.com".toList)))
    ∧ (∀ (flags : ParserProxy.Flags) (w : ParserProxy.World),
        Go.succeeded (ParserProxy.main net outHeader resHeader flags w).2
          = Go.succeeded (url.Parse (flags.host.getD "https://example.com".toList)))
    ∧ url.Parse ":80".toList = .error "missing protocol scheme"
    ∧ url.Parse "http://[::1".toList = .error "missing ']' in host"
    ∧ url.Parse "http://a\nb".toList = .error "net/url: invalid control character in URL"
    ∧ url.Parse [] = .ok url.URL.zero
    ∧ url.Parse "example.com".toList = .ok { url.URL.zero with Path := "example.com".toList }
    ∧ url.Parse "https://example.com".toList
        = .ok { url.URL.zero with Scheme := "https".toList, Host := "example.com".toList } := by
  refine ⟨?_, ?_, by decide, by decide, by decide, by decide, by decide, by decide⟩
  · intro flags w
    simp only [Proxy.main, http.handle_root]
    split <;> simp_all [Go.succeeded]
  · intro flags w
    simp only [ParserProxy.main, http.handle_root]
    split <;> simp_all [Go.succeeded]

namespace Proxy

/-- C8: when the request body reads (bytes `B`) and closes without error, the request
`ServeHTTP` hands to the engine (in both programs) has the method, URL (scheme, host,
path, query), protocol, headers, content length and remote address of the inbound
request; it differs from the inbound request in `Body` (a stream with the same bytes)
and `Host` only. -/
theorem C8_only_body_and_host_change (r : http.Request) (B : List Byte)
    (hread : ioutil.ReadAll r.Body = (B, none)) (hclose : r.Body.Close = none) :
    (∀ {σ : Type} (ph : ProxyHandler σ) (w : World), ∃ r2 : http.Request,
      ph.ServeHTTP w r = ph.p { w with current_payload := B } r2
      ∧ (handoff.ServeHTTP w r).2 = .ok r2
      ∧ r2.Method = r.Method ∧ r2.URL = r.URL ∧ r2.Proto = r.Proto ∧ r2.Header = r.Header
      ∧ r2.ContentLength = r.ContentLength ∧ r2.RemoteAddr = r.RemoteAddr
      ∧ ioutil.ReadAll r2.Body = ioutil.ReadAll r.Body
      ∧ r2 = { r with Body := r2.Body, Host := r2.Host })
    ∧ (∀ {σ : Type} (ph : ParserProxy.ProxyHandler σ) (w : ParserProxy.World),
      ∃ r2 : http.Request,
      ph.ServeHTTP w r = ph.p { w with current_payload := B } r2
      ∧ (ParserProxy.handoff.ServeHTTP w r).2 = .ok r2
      ∧ r2.Method = r.Method ∧ r2.URL = r.URL ∧ r2.Proto = r.Proto ∧ r2.Header = r.Header
      ∧ r2.ContentLength = r.ContentLength ∧ r2.RemoteAddr = r.RemoteAddr
      ∧ ioutil.ReadAll r2.Body = ioutil.ReadAll r.Body
      ∧ r2 = { r with Body := r2.Body, Host := r2.Host }) := by
  constructor
  · intro σ ph w
    refine ⟨{ r with Body := ioutil.NopCloser (bytes.NewReader B), Host := w.remote.Host },
      ?_, ?_, rfl, rfl, rfl, rfl, rfl, rfl, ?_, rfl⟩
    · simp only [ProxyHandler.ServeHTTP, hread, hclose]
    · simp only [ProxyHandler.ServeHTTP, hread, hclose, handoff]
    · rw [hread]; rfl
  · intro σ ph w
    refine ⟨{ r with Body := ioutil.NopCloser (bytes.NewReader B), Host := w.remote.Host },
      ?_, ?_, rfl, rfl, rfl, rfl, rfl, rfl, ?_, rfl⟩
    · simp only [ParserProxy.ProxyHandler.ServeHTTP, hread, hclose]
    · simp only [ParserProxy.ProxyHandler.ServeHTTP, hread, hclose, ParserProxy.handoff]
    · rw [hread]; rfl

/-- C8 at `POST /items`: the engine is handed the method `POST`, the path `/items` and
the headers of the inbound request. -/
theorem C8_only_body_and_host_change_witness :
    ∃ r2 : http.Request,
      (handoff.ServeHTTP World.init Sample.postItems).2 = .ok r2
      ∧ r2.Method = "POST".toList ∧ r2.URL.Path = "/items".toList
      ∧ r2.Header = Sample.postItems.Header := by
  obtain ⟨r2, _, h2, hm, hu, _, hh, _⟩ :=
    (C8_only_body_and_host_change Sample.postItems "\x7b\"x\":1\x7d".toList rfl rfl).1
      handoff World.init
  exact ⟨r2, h2, by rw [hm]; rfl, by rw [hu]; rfl, hh⟩

/-- C9: when the exchanges are processed one at a time, from any starting world (so any
value of `current_payload`), every printed record carries the request body of its own
exchange; `current_payload` is empty after every `dump_response` (after the hook of an
exchange that printed a record, and after any call of `dump_response`); every exchange
whose request and response streams read and close without error does get its record;
and the same holds for whole exchanges run one after the other through the handler that
`main` installs: what is printed splits into one group per request, of at most one
record, carrying the body of that request. -/
theorem C9_sequential_exchanges_correlated (prep : http.Request → http.Request)
    (xs : List Exchange) (w0 : World) :
    Correlated xs (run prep xs (Sys.init w0) (sequential xs.length))
    ∧ (∀ i rec, (i, rec) ∈ (run prep xs (Sys.init w0) (sequential (i + 1))).emitted →
        (run prep xs (Sys.init w0) (sequential (i + 1))).world.current_payload = [])
    ∧ (∀ (w : World) (resp : http.Response) (body : List Byte),
        (dump_response w resp body).1.current_payload = [])
    ∧ (∀ i x, xs[i]? = some x →
        (ioutil.ReadAll x.request.Body).2 = none → x.request.Body.Close = none →
        (ioutil.ReadAll x.reply.Body).2 = none → x.reply.Body.Close = none →
        ∃ rec, (i, rec) ∈ (run prep xs (Sys.init w0) (sequential xs.length)).emitted)
    ∧ (∀ (net : http.Request → Except GoError http.Response)
        (outHeader : http.Request → http.Header) (resHeader : http.Response → http.Header)
        (target : url.URL) (rs : List http.Request),
        ∃ ls : List (List RecordLog),
          (serveAll (installed net outHeader resHeader target) w0 rs).stdout
            = w0.stdout ++ ls.flatten
          ∧ List.Forall₂
              (fun r l => l.length ≤ 1
                ∧ ∀ rec ∈ l, rec.Request.Payload = Go.string (ioutil.ReadAll r.Body).1)
              rs ls) := by
  refine ⟨?_, ?_, ?_, ?_, fun net outHeader resHeader target rs =>
    serveAll_out net outHeader resHeader target rs w0⟩
  · intro e he x hx
    exact ((sequential_invariant prep xs w0 xs.length).2.1 e he).2 x hx
  · intro i rec hrec
    obtain ⟨hinf, hem, _⟩ := sequential_invariant prep xs w0 i
    have hrun : run prep xs (Sys.init w0) (sequential (i + 1))
        = run prep xs (run prep xs (Sys.init w0) (sequential i)) [.serve i, .hook i] := by
      simp only [sequential, allSteps, run_append]
    obtain ⟨l, hl, _, _, hcp⟩ :=
      step_pair prep xs (run prep xs (Sys.init w0) (sequential i)) i hinf
    rw [hrun] at hrec ⊢
    rw [hl, List.mem_append] at hrec
    rcases hrec with hold | hnew
    · exact absurd (hem _ hold).1 (Nat.lt_irrefl i)
    · exact hcp (List.ne_nil_of_mem hnew)
  · intro w resp body
    simp only [dump_response, json.Marshal]
  · intro i x hx hr hc hr2 hc2
    have hi : i < xs.length := by
      rcases Nat.lt_or_ge i xs.length with h | h
      · exact h
      · rw [List.getElem?_eq_none h] at hx
        exact absurd hx (by simp)
    exact (sequential_invariant prep xs w0 xs.length).2.2 i hi x hx hr hc hr2 hc2

end Proxy

/-- C10: the two programs are equivalent on the interception pipeline.  From worlds that
correspond, `ServeHTTP` hands the same request to the engine (or panics with the same
error), `parse_response` leaves the same response and returns the same error (or panics
with the same error), `dump_response` prints one record each, and in all three cases the
worlds correspond again: equal `new_host`, `remote`, `current_payload`, and printed
records that agree on every `Request` field, on `Response.Status_code` and
`Response.Headers`, and hold the same bytes in `Response.Body`. -/
theorem C10_variants_equivalent (w1 : Proxy.World) (w2 : ParserProxy.World)
    (h : worldsAgree w1 w2) :
    (∀ r : http.Request,
        (Proxy.handoff.ServeHTTP w1 r).2 = (ParserProxy.handoff.ServeHTTP w2 r).2
        ∧ worldsAgree (Proxy.handoff.ServeHTTP w1 r).1 (ParserProxy.handoff.ServeHTTP w2 r).1)
    ∧ (∀ resp : http.Response,
        (Proxy.parse_response w1 resp).2 = (ParserProxy.parse_response w2 resp).2
        ∧ worldsAgree (Proxy.parse_response w1 resp).1 (ParserProxy.parse_response w2 resp).1)
    ∧ (∀ (resp : http.Response) (body : List Byte),
        (Proxy.dump_response w1 resp body).2 = (ParserProxy.dump_response w2 resp body).2
        ∧ worldsAgree (Proxy.dump_response w1 resp body).1
            (ParserProxy.dump_response w2 resp body).1
        ∧ ∃ a b, (Proxy.dump_response w1 resp body).1.stdout = w1.stdout ++ [a]
            ∧ (ParserProxy.dump_response w2 resp body).1.stdout = w2.stdout ++ [b]
            ∧ recordsAgree a b) := by
  obtain ⟨hn, hr, hc, hs⟩ := h
  have hdump : ∀ (resp : http.Response) (body : List Byte),
      (Proxy.dump_response w1 resp body).2 = (ParserProxy.dump_response w2 resp body).2
      ∧ worldsAgree (Proxy.dump_response w1 resp body).1
          (ParserProxy.dump_response w2 resp body).1
      ∧ ∃ a b, (Proxy.dump_response w1 resp body).1.stdout = w1.stdout ++ [a]
          ∧ (ParserProxy.dump_response w2 resp body).1.stdout = w2.stdout ++ [b]
          ∧ recordsAgree a b := by
    intro resp body
    have hag : recordsAgree
        { Request :=
            { Payload := Go.string w1.current_payload
              Protocol := resp.Request.Proto
              Path := resp.Request.URL.String
              Method := resp.Request.Method
              Headers := resp.Request.Header }
          Response :=
            { Status_code := resp.StatusCode
              Body := Go.string body
              Headers := resp.Header } }
        { Request :=
            { Payload := Go.string w2.current_payload
              Protocol := resp.Request.Proto
              Path := resp.Request.URL.String
              Method := resp.Request.Method
              Headers := resp.Request.Header }
          Response :=
            { Status_code := resp.StatusCode
              Body := body
              Headers := resp.Header } } := by
      simp [recordsAgree, hc, Go.string]
    refine ⟨rfl, ⟨hn, hr, rfl, ?_⟩, _, _, rfl, rfl, hag⟩
    exact List.rel_append hs (List.Forall₂.cons hag List.Forall₂.nil)
  refine ⟨?_, ?_, hdump⟩
  · intro r
    simp only [Proxy.ProxyHandler.ServeHTTP, ParserProxy.ProxyHandler.ServeHTTP,
      Proxy.handoff, ParserProxy.handoff]
    split
    · exact ⟨rfl, hn, hr, hc, hs⟩
    · split
      · exact ⟨rfl, hn, hr, hc, hs⟩
      · exact ⟨by rw [hr], hn, hr, rfl, hs⟩
  · intro resp
    simp only [Proxy.parse_response, ParserProxy.parse_response]
    split
    · exact ⟨rfl, hn, hr, hc, hs⟩
    · split
      · exact ⟨rfl, hn, hr, hc, hs⟩
      · rename_i b _ _ _
        obtain ⟨h2, hw, -⟩ :=
          hdump { resp with Body := ioutil.NopCloser (bytes.NewReader b) } b
        simp only [Proxy.dump_response, ParserProxy.dump_response, json.Marshal] at h2 hw ⊢
        exact ⟨trivial, hw⟩

/-- C10 at the start state of both programs and the response `201 {"id":7}`: both hooks
print one record, and the two records agree. -/
theorem C10_variants_equivalent_witness :
    List.Forall₂ recordsAgree (Proxy.parse_response Proxy.World.init Sample.created).1.stdout
      (ParserProxy.parse_response ParserProxy.World.init Sample.created).1.stdout
    ∧ (Proxy.parse_response Proxy.World.init Sample.created).1.stdout.length = 1 :=
  ⟨(((C10_variants_equivalent Proxy.World.init ParserProxy.World.init
      ⟨rfl, rfl, rfl, List.Forall₂.nil⟩).2.1 Sample.created).2).2.2.2, rfl⟩
